import Mathlib

/-!
# Weather visualisation pipeline: region filter and grid interpolation

A shallow embedding of the data-preparation code of the weather map:

* `src/pages/api/getDataRegion.js`: `convertISO8601ToAzureDateTime`,
  `filterPointsByDateTime`, `getDataWithinRegion`;
* `src/pages/api/geoJsonHelper.js`: `findRegionRowInStream`;
* `src/app/components/Map.jsx`: `bilinearInterpolation`,
  `getSurroundingPoints`, `generateInterpolatedPoints`.

JavaScript numbers are embedded as `JSNum`: a finite value is named by the
rational it equals, next to `NaN` and the two infinities.  There is one zero
(the sign of zero is never observed by the code: `String(-0)` is `"0"` and
`-0 === 0`; only a division by zero tells the zeros apart, and the code
divides by zero at `x` and `y` alone, which it never reads).  Comparisons,
`isNaN`, `Math.min` and `Math.max` are exact on doubles and are defined on
`JSNum`.  The operators `+`, `-` and `/`, which round, are a parameter
`ar : Arith` of the embedded functions, and so are the built-ins that the
code calls on strings (`parseFloat`, the `ToNumber` coercion of `<=` and
`-`) and the library call `booleanPointInPolygon`: every theorem holds for
whatever these compute, the arithmetic of doubles included.  `exactArith`
is the arithmetic without rounding; it is used to evaluate the functions at
inputs where no rounding occurs.  Limits of an engine on the size of an
array or on the number of spread arguments are outside the embedding.
-/

set_option autoImplicit false

namespace WeatherViz

/-! ## JavaScript numbers -/

/-- A JavaScript number: `NaN`, an infinity, or a finite value. -/
inductive JSNum where
  | nan
  | negInf
  | fin (q : ℚ)
  | posInf
  deriving DecidableEq, Repr

namespace JSNum

/-- The global `isNaN` on a number. -/
def isNaN : JSNum → Bool
  | nan => true
  | _ => false

/-- The predicate `Number.isFinite`. -/
def isFinite : JSNum → Bool
  | fin _ => true
  | _ => false

/-- The operator `a < b` on numbers; any comparison with `NaN` is false. -/
def lt : JSNum → JSNum → Bool
  | nan, _ => false
  | _, nan => false
  | negInf, negInf => false
  | negInf, _ => true
  | fin _, negInf => false
  | fin a, fin b => decide (a < b)
  | fin _, posInf => true
  | posInf, _ => false

/-- The operator `a <= b` on numbers; any comparison with `NaN` is false. -/
def le : JSNum → JSNum → Bool
  | nan, _ => false
  | _, nan => false
  | negInf, _ => true
  | fin _, negInf => false
  | fin a, fin b => decide (a ≤ b)
  | fin _, posInf => true
  | posInf, posInf => true
  | posInf, _ => false

/-- The operator `a > b`, which JavaScript evaluates as `b < a`. -/
def gt (a b : JSNum) : Bool := lt b a

/-- The sum `a + b` without rounding. -/
def add : JSNum → JSNum → JSNum
  | nan, _ => nan
  | _, nan => nan
  | negInf, posInf => nan
  | posInf, negInf => nan
  | negInf, _ => negInf
  | _, negInf => negInf
  | posInf, _ => posInf
  | _, posInf => posInf
  | fin a, fin b => fin (a + b)

/-- Unary minus. -/
def neg : JSNum → JSNum
  | nan => nan
  | negInf => posInf
  | fin a => fin (-a)
  | posInf => negInf

/-- The difference `a - b` without rounding. -/
def sub (a b : JSNum) : JSNum := add a (neg b)

/-- The quotient `a / b` without rounding.  A zero divisor is the positive
zero. -/
def div : JSNum → JSNum → JSNum
  | nan, _ => nan
  | _, nan => nan
  | fin a, fin b =>
      if b = 0 then
        (if a = 0 then nan else if 0 < a then posInf else negInf)
      else fin (a / b)
  | fin _, _ => fin 0
  | posInf, fin b => if 0 ≤ b then posInf else negInf
  | negInf, fin b => if 0 ≤ b then negInf else posInf
  | _, _ => nan

/-- The two-argument step of `Math.min`: `NaN` wins, else the smaller. -/
def min2 (a b : JSNum) : JSNum :=
  if a.isNaN || b.isNaN then nan else if lt b a then b else a

/-- The two-argument step of `Math.max`: `NaN` wins, else the larger. -/
def max2 (a b : JSNum) : JSNum :=
  if a.isNaN || b.isNaN then nan else if lt a b then b else a

/-- The call `Math.min(...xs)`; with no argument it is `Infinity`. -/
def mathMin (xs : List JSNum) : JSNum := xs.foldl min2 posInf

/-- The call `Math.max(...xs)`; with no argument it is `-Infinity`. -/
def mathMax (xs : List JSNum) : JSNum := xs.foldl max2 negInf

end JSNum

/-- The operators `+`, `-` and `/` on numbers, as the machine computes them:
on doubles each rounds its exact result. -/
structure Arith where
  add : JSNum → JSNum → JSNum
  sub : JSNum → JSNum → JSNum
  div : JSNum → JSNum → JSNum

/-- The arithmetic without rounding.  It agrees with the arithmetic of
doubles wherever the exact result is a double. -/
def exactArith : Arith :=
  { add := JSNum.add, sub := JSNum.sub, div := JSNum.div }

/-! ## JavaScript strings -/

/-- The pieces of `s.split(sep)` for a one-character separator, on the
characters of `s`. -/
def splitChars (sep : Char) : List Char → List (List Char)
  | [] => [[]]
  | c :: cs =>
      if c = sep then [] :: splitChars sep cs
      else
        match splitChars sep cs with
        | [] => [[c]]
        | p :: ps => (c :: p) :: ps

/-- The call `s.split(sep)` for a one-character separator. -/
def split (s : String) (sep : Char) : List String :=
  (splitChars sep s.data).map String.mk

/-- The call `s.includes(t)` on the characters of the two strings. -/
def includesChars : List Char → List Char → Bool
  | [], t => t.isEmpty
  | c :: cs, t => t.isPrefixOf (c :: cs) || includesChars cs t

/-- The call `s.includes(t)`. -/
def includes (s t : String) : Bool := includesChars s.data t.data

/-- Strict equality `a === b` of a record field (`none` is `undefined`)
with a value that is a string or `null` (`none`): true only for two equal
strings. -/
def strictEq : Option String → Option String → Bool
  | some a, some b => decide (a = b)
  | _, _ => false

/-! ## Records -/

/-- One row of the weather data as parsed from CSV with a header: every
present field is a string, `none` is a field the row does not have. -/
structure WeatherPoint where
  time : Option String
  latitude : Option String
  longitude : Option String
  sp : Option String
  t2m : Option String
  deriving DecidableEq, Repr

/-- A built-in of type string-to-number (`parseFloat`, `ToNumber`) applied
to a record field: an absent field is `undefined`, which gives `NaN`. -/
def onField (f : String → JSNum) : Option String → JSNum
  | none => JSNum.nan
  | some s => f s

/-! ## `src/pages/api/getDataRegion.js` -/

/-- Converts `date + "T" + time` to `date + " " + time + ":00"`; `none` is
the `null` returned when the split does not give two parts. -/
def convertISO8601ToAzureDateTime (iso8601DateTime : String) : Option String :=
  match split iso8601DateTime 'T' with
  | [datePart, timePart] => some (datePart ++ " " ++ timePart ++ ":00")
  | _ => none

/-- Keeps the points whose `time` is strictly equal to the target. -/
def filterPointsByDateTime (points : List WeatherPoint)
    (targetDateTime : Option String) : List WeatherPoint :=
  points.filter (fun point => strictEq point.time targetDateTime)

/-- The callback of `dateTimeFilteredPoints.filter(...)` run over the
points from left to right; `uniqueCoordinates` is the set of coordinate
keys added so far.  The key is the template string of the two parsed
numbers, which is the same string exactly for the same pair of numbers, so
the pair stands for it. -/
def filterRows (parseFloat : String → JSNum) (inside : JSNum → JSNum → Bool) :
    List (JSNum × JSNum) → List WeatherPoint → List WeatherPoint
  | _, [] => []
  | uniqueCoordinates, point :: rest =>
      let longitude := onField parseFloat point.longitude
      let latitude := onField parseFloat point.latitude
      if !longitude.isNaN && !latitude.isNaN then
        let coordinate := (longitude, latitude)
        if !uniqueCoordinates.contains coordinate then
          if !inside longitude latitude then
            filterRows parseFloat inside (coordinate :: uniqueCoordinates) rest
          else
            point :: filterRows parseFloat inside (coordinate :: uniqueCoordinates) rest
        else
          filterRows parseFloat inside uniqueCoordinates rest
      else
        filterRows parseFloat inside uniqueCoordinates rest

/-- The points at the selected date-time, with valid coordinates, first of
their coordinate, inside the region.  `inside longitude latitude` is
`booleanPointInPolygon(turfPoint([longitude, latitude]), geoJson)`. -/
def getDataWithinRegion (parseFloat : String → JSNum) (inside : JSNum → JSNum → Bool)
    (points : List WeatherPoint) (selectedDateTime : String) : List WeatherPoint :=
  let iso8601DateTime := convertISO8601ToAzureDateTime selectedDateTime
  let dateTimeFilteredPoints := filterPointsByDateTime points iso8601DateTime
  filterRows parseFloat inside [] dateTimeFilteredPoints

/-! ## `src/pages/api/geoJsonHelper.js` -/

/-- The loop of `findRegionRowInStream` over the lines that the readline
interface yields, in order: the first line that includes the region name is
returned, and when the lines are exhausted `Error("Region not found")` is
thrown (`Except.error` carries the message). -/
def findRegionRowInStream : List String → String → Except String String
  | [], _ => .error "Region not found"
  | line :: rest, regionName =>
      if includes line regionName then .ok line
      else findRegionRowInStream rest regionName

/-! ## `src/app/components/Map.jsx` -/

/-- A point pushed by `generateInterpolatedPoints`. -/
structure GridNode where
  latitude : JSNum
  longitude : JSNum
  sp : JSNum
  deriving DecidableEq, Repr

/-- The element `points[i]` of an array whose entries may be `undefined`;
an index past the end is `undefined` too. -/
def nth {α : Type} (points : List (Option α)) (i : Nat) : Option α :=
  (points.get? i).join

/-- The sum of the `sp` of the four points divided by 4, with the `+` and `/`
of `ar`, or `NaN` when one of them does not parse; `x` and `y` are not read.
The outer `none` is the `TypeError` of reading `.sp` of an `undefined`
entry. -/
def bilinearInterpolation (ar : Arith) (parseFloat : String → JSNum) (_x _y : JSNum)
    (points : List (Option WeatherPoint)) : Option JSNum := do
  let p00 ← nth points 0
  let p01 ← nth points 1
  let p10 ← nth points 2
  let p11 ← nth points 3
  let p00_value := onField parseFloat p00.sp
  let p01_value := onField parseFloat p01.sp
  let p10_value := onField parseFloat p10.sp
  let p11_value := onField parseFloat p11.sp
  if p00_value.isNaN || p01_value.isNaN || p10_value.isNaN || p11_value.isNaN then
    pure JSNum.nan
  else
    pure (ar.div (ar.add (ar.add (ar.add p00_value p01_value) p10_value) p11_value)
      (JSNum.fin 4))

/-- The four variables `p00, p01, p10, p11` of `getSurroundingPoints`. -/
structure Quad where
  p00 : Option WeatherPoint
  p01 : Option WeatherPoint
  p10 : Option WeatherPoint
  p11 : Option WeatherPoint
  deriving DecidableEq, Repr

/-- The truth of `p00 && p01 && p10 && p11`. -/
def Quad.full (q : Quad) : Bool :=
  q.p00.isSome && q.p01.isSome && q.p10.isSome && q.p11.isSome

/-- The condition `point.latitude <= lat && point.longitude <= lon`; the
string fields are coerced by `toNumber`. -/
def inQ00 (toNumber : String → JSNum) (lat lon : JSNum) (point : WeatherPoint) : Bool :=
  JSNum.le (onField toNumber point.latitude) lat && JSNum.le (onField toNumber point.longitude) lon

/-- The condition `point.latitude <= lat && point.longitude > lon`. -/
def inQ01 (toNumber : String → JSNum) (lat lon : JSNum) (point : WeatherPoint) : Bool :=
  JSNum.le (onField toNumber point.latitude) lat && JSNum.gt (onField toNumber point.longitude) lon

/-- The condition `point.latitude > lat && point.longitude <= lon`. -/
def inQ10 (toNumber : String → JSNum) (lat lon : JSNum) (point : WeatherPoint) : Bool :=
  JSNum.gt (onField toNumber point.latitude) lat && JSNum.le (onField toNumber point.longitude) lon

/-- The condition `point.latitude > lat && point.longitude > lon`. -/
def inQ11 (toNumber : String → JSNum) (lat lon : JSNum) (point : WeatherPoint) : Bool :=
  JSNum.gt (onField toNumber point.latitude) lat && JSNum.gt (onField toNumber point.longitude) lon

/-- The four conditional assignments of one iteration of the loop. -/
def assignPoint (toNumber : String → JSNum) (lat lon : JSNum) (point : WeatherPoint)
    (q : Quad) : Quad :=
  let q := if inQ00 toNumber lat lon point then { q with p00 := some point } else q
  let q := if inQ01 toNumber lat lon point then { q with p01 := some point } else q
  let q := if inQ10 toNumber lat lon point then { q with p10 := some point } else q
  let q := if inQ11 toNumber lat lon point then { q with p11 := some point } else q
  q

/-- The loop `for (const point of data)` with its `break`. -/
def surroundingLoop (toNumber : String → JSNum) (lat lon : JSNum) :
    List WeatherPoint → Quad → Quad
  | [], q => q
  | point :: rest, q =>
      let q1 := assignPoint toNumber lat lon point q
      if q1.full then q1 else surroundingLoop toNumber lat lon rest q1

/-- The array `[p00, p01, p10, p11]` after the loop. -/
def getSurroundingPoints (toNumber : String → JSNum) (lat lon : JSNum)
    (data : List WeatherPoint) : List (Option WeatherPoint) :=
  let q := surroundingLoop toNumber lat lon data ⟨none, none, none, none⟩
  [q.p00, q.p01, q.p10, q.p11]

/-- The loop `for (let v = init; v <= bound; v += step) body`, on a state
that the body updates; `v += step` is the addition of `ar`.  The result is
`none` when the body gives `none` or when the loop has not ended after
`fuel` tests of its condition. -/
def forLoop {σ : Type} (ar : Arith) (bound step : JSNum) (body : JSNum → σ → Option σ) :
    Nat → JSNum → σ → Option σ
  | 0, _, _ => none
  | fuel + 1, v, s =>
      if JSNum.le v bound then
        (body v s).bind (fun s1 => forLoop ar bound step body fuel (ar.add v step) s1)
      else some s

/-- The body of the inner loop of `generateInterpolatedPoints` at the cell
`(lat, lon)`, on the array `interpolatedPoints`; `none` is a `TypeError`. -/
def gridCell (ar : Arith) (parseFloat toNumber : String → JSNum) (data : List WeatherPoint)
    (lat lon : JSNum) (interpolatedPoints : List GridNode) : Option (List GridNode) :=
  let surroundingPoints := getSurroundingPoints toNumber lat lon data
  if surroundingPoints.contains none then some interpolatedPoints
  else do
    let s0 ← nth surroundingPoints 0
    let s1 ← nth surroundingPoints 1
    let s2 ← nth surroundingPoints 2
    let x := ar.div (ar.sub lon (onField toNumber s0.longitude))
      (ar.sub (onField toNumber s2.longitude) (onField toNumber s0.longitude))
    let y := ar.div (ar.sub lat (onField toNumber s0.latitude))
      (ar.sub (onField toNumber s1.latitude) (onField toNumber s0.latitude))
    let interpolatedPressure ← bilinearInterpolation ar parseFloat x y surroundingPoints
    if surroundingPoints.contains none then pure interpolatedPoints
    else pure (interpolatedPoints ++
      [{ latitude := lat, longitude := lon, sp := interpolatedPressure }])

/-- The bounding box and the steps computed at the head of
`generateInterpolatedPoints`. -/
structure Grid where
  minLat : JSNum
  maxLat : JSNum
  minLon : JSNum
  maxLon : JSNum
  latStep : JSNum
  lonStep : JSNum
  deriving DecidableEq, Repr

/-- Lines 68 to 77 of `Map.jsx`: bounds of the parsed coordinates and the
two steps, computed with the `-` and `/` of `ar`. -/
def gridOf (ar : Arith) (parseFloat : String → JSNum) (data : List WeatherPoint)
    (gridSize : JSNum) : Grid :=
  let lats := data.map (fun p => onField parseFloat p.latitude)
  let lons := data.map (fun p => onField parseFloat p.longitude)
  let minLat := JSNum.mathMin lats
  let maxLat := JSNum.mathMax lats
  let minLon := JSNum.mathMin lons
  let maxLon := JSNum.mathMax lons
  { minLat := minLat, maxLat := maxLat, minLon := minLon, maxLon := maxLon,
    latStep := ar.div (ar.sub maxLat minLat) gridSize,
    lonStep := ar.div (ar.sub maxLon minLon) gridSize }

/-- The two nested loops over a grid with an arbitrary cell body.  Each
loop may test its condition at most `fuel` times. -/
def gridLoops {σ : Type} (ar : Arith) (g : Grid) (cell : JSNum → JSNum → σ → Option σ)
    (fuel : Nat) (init : σ) : Option σ :=
  forLoop ar g.maxLat g.latStep
    (fun lat s => forLoop ar g.maxLon g.lonStep (fun lon s1 => cell lat lon s1) fuel g.minLon s)
    fuel g.minLat init

/-- The interpolated points of the grid over the bounding box of the data;
`none` when the loops do not end within `fuel` or a `TypeError` is
thrown. -/
def generateInterpolatedPoints (ar : Arith) (parseFloat toNumber : String → JSNum) (fuel : Nat)
    (data : List WeatherPoint) (gridSize : JSNum) : Option (List GridNode) :=
  gridLoops ar (gridOf ar parseFloat data gridSize) (gridCell ar parseFloat toNumber data) fuel []

/-- The cells `(lat, lon)` that the two loops of `generateInterpolatedPoints`
visit, in order: the same loops with a body that records the cell. -/
def visitedCells (ar : Arith) (parseFloat : String → JSNum) (fuel : Nat)
    (data : List WeatherPoint) (gridSize : JSNum) : Option (List (JSNum × JSNum)) :=
  gridLoops ar (gridOf ar parseFloat data gridSize)
    (fun lat lon cells => some (cells ++ [(lat, lon)])) fuel []

/-! ## Concrete readers of numbers

Decimal readers for `parseFloat` and `ToNumber`, used to evaluate the
functions on concrete records.  They keep the exact value of the numeral
(no rounding to a double, no overflow to `Infinity`) and treat space, tab,
carriage return and line feed as white space: on a numeral whose value is a
double (such as `0.25` or `30`) they give the number that the built-in
returns, and on another numeral (such as `0.1`) the exact value where the
built-in returns the nearest double.  The theorems do not depend on them:
there the two built-ins are parameters. -/

/-- Reads a maximal run of digits of the given radix, accumulating the value
and the number of digits read. -/
def readDigits (radix : Nat) : List Char → Nat → Nat → Nat × Nat × List Char
  | [], acc, n => (acc, n, [])
  | c :: cs, acc, n =>
      let d : Option Nat :=
        if c.isDigit then some (c.toNat - 48)
        else if 'a'.toNat ≤ c.toNat ∧ c.toNat ≤ 'f'.toNat then some (c.toNat - 87)
        else if 'A'.toNat ≤ c.toNat ∧ c.toNat ≤ 'F'.toNat then some (c.toNat - 55)
        else none
      match d with
      | some v => if v < radix then readDigits radix cs (acc * radix + v) (n + 1) else (acc, n, c :: cs)
      | none => (acc, n, c :: cs)

/-- Reads an optional sign; the boolean is true for a minus. -/
def readSign : List Char → Bool × List Char
  | '-' :: cs => (true, cs)
  | '+' :: cs => (false, cs)
  | cs => (false, cs)

/-- Reads the exponent part `e[+-]digits` when it is complete; the factor is
`10 ^ exponent`. -/
def readExponent : List Char → ℚ × List Char
  | c :: cs =>
      if c = 'e' ∨ c = 'E' then
        let (negative, r) := readSign cs
        let (e, n, r1) := readDigits 10 r 0 0
        if n = 0 then (1, c :: cs)
        else if negative then (1 / (10 : ℚ) ^ e, r1) else ((10 : ℚ) ^ e, r1)
      else (1, c :: cs)
  | [] => (1, [])

/-- Reads the longest prefix that is an unsigned decimal literal or
`Infinity`, with the unread rest. -/
def readUnsigned (cs : List Char) : Option (JSNum × List Char) :=
  if "Infinity".data.isPrefixOf cs then some (JSNum.posInf, cs.drop 8)
  else
    let (i, ni, r1) := readDigits 10 cs 0 0
    let (f, nf, r2) : Nat × Nat × List Char :=
      match r1 with
      | '.' :: r => readDigits 10 r 0 0
      | _ => (0, 0, r1)
    if ni = 0 ∧ nf = 0 then none
    else
      let (factor, r3) := readExponent r2
      some (JSNum.fin (((i : ℚ) * (10 : ℚ) ^ nf + (f : ℚ)) / (10 : ℚ) ^ nf * factor), r3)

/-- Reads a signed decimal literal. -/
def readSigned (cs : List Char) : Option (JSNum × List Char) :=
  let (negative, r) := readSign cs
  (readUnsigned r).map (fun (v, rest) => (if negative then JSNum.neg v else v, rest))

/-- The built-in `parseFloat` on a string: leading white space is skipped and
the longest decimal prefix is read; `NaN` when there is none. -/
def jsParseFloat (s : String) : JSNum :=
  match readSigned (s.data.dropWhile Char.isWhitespace) with
  | some (v, _) => v
  | none => JSNum.nan

/-- The coercion `ToNumber` on a string: the whole trimmed string must be a
numeric literal (decimal, or an unsigned `0x`, `0o`, `0b` integer), the
empty string is `0`, anything else is `NaN`. -/
def jsToNumber (s : String) : JSNum :=
  let cs := ((s.data.dropWhile Char.isWhitespace).reverse.dropWhile Char.isWhitespace).reverse
  let radixLiteral (radix : Nat) (r : List Char) : JSNum :=
    match readDigits radix r 0 0 with
    | (v, n, []) => if n = 0 then JSNum.nan else JSNum.fin v
    | _ => JSNum.nan
  match cs with
  | [] => JSNum.fin 0
  | '0' :: 'x' :: r => radixLiteral 16 r
  | '0' :: 'X' :: r => radixLiteral 16 r
  | '0' :: 'o' :: r => radixLiteral 8 r
  | '0' :: 'O' :: r => radixLiteral 8 r
  | '0' :: 'b' :: r => radixLiteral 2 r
  | '0' :: 'B' :: r => radixLiteral 2 r
  | _ =>
      match readSigned cs with
      | some (v, []) => v
      | _ => JSNum.nan

/-- A record with the given time, longitude, latitude and `sp`. -/
def mkPoint (time longitude latitude sp : String) : WeatherPoint :=
  { time := some time, latitude := some latitude, longitude := some longitude,
    sp := some sp, t2m := none }

/-- The containment test of the unit square, boundary included. -/
def unitSquare (lon lat : JSNum) : Bool :=
  JSNum.le (JSNum.fin 0) lon && JSNum.le lon (JSNum.fin 1) &&
    JSNum.le (JSNum.fin 0) lat && JSNum.le lat (JSNum.fin 1)

/-- The end-to-end scenario: three records at the target time, the third
outside the unit square. -/
def scenarioPoints : List WeatherPoint :=
  [mkPoint "2022-10-05 00:00:00" "0.1" "0.1" "10",
   mkPoint "2022-10-05 00:00:00" "0.9" "0.1" "10",
   mkPoint "2022-10-05 00:00:00" "5" "5" "99"]

/-- The duplicate scenario: two records at one coordinate with different
values, between records of another time and of an invalid longitude. -/
def duplicatePoints : List WeatherPoint :=
  [mkPoint "2022-10-05 01:00:00" "0.5" "0.5" "1",
   mkPoint "2022-10-05 00:00:00" "0.5" "0.5" "2",
   mkPoint "2022-10-05 00:00:00" "abc" "0.5" "3",
   mkPoint "2022-10-05 00:00:00" "0.50" "0.5" "4"]

/-! ## Statement-side definitions -/

/-- The parsed `(longitude, latitude)` pair of a record. -/
def coordOf (parseFloat : String → JSNum) (r : WeatherPoint) : JSNum × JSNum :=
  (onField parseFloat r.longitude, onField parseFloat r.latitude)

/-- Both coordinates of the record parse to a number (neither is `NaN`). -/
def validCoord (parseFloat : String → JSNum) (r : WeatherPoint) : Bool :=
  !(onField parseFloat r.longitude).isNaN && !(onField parseFloat r.latitude).isNaN

/-- The selection rule of the region filter for a record `r` that comes
after the records `earlier`: its time is the target, its coordinates parse,
its point is inside the region, and no earlier record with the target time
has the same parsed pair. -/
def keptAfter (parseFloat : String → JSNum) (inside : JSNum → JSNum → Bool) (target : String)
    (earlier : List WeatherPoint) (r : WeatherPoint) : Bool :=
  decide (r.time = some target) && validCoord parseFloat r &&
    inside (onField parseFloat r.longitude) (onField parseFloat r.latitude) &&
    earlier.all (fun q =>
      !(decide (q.time = some target) && decide (coordOf parseFloat q = coordOf parseFloat r)))

/-- The subsequence, in scan order, of the records selected by `keptAfter`;
`earlier` holds the records already scanned. -/
def regionFilterSpec (parseFloat : String → JSNum) (inside : JSNum → JSNum → Bool)
    (target : String) : List WeatherPoint → List WeatherPoint → List WeatherPoint
  | _, [] => []
  | earlier, r :: rest =>
      if keptAfter parseFloat inside target earlier r then
        r :: regionFilterSpec parseFloat inside target (earlier ++ [r]) rest
      else regionFilterSpec parseFloat inside target (earlier ++ [r]) rest

/-- All four quadrants relative to `(lat, lon)` hold a point of the data. -/
def AllQuadrants (toNumber : String → JSNum) (lat lon : JSNum) (data : List WeatherPoint) : Prop :=
  (∃ p ∈ data, inQ00 toNumber lat lon p = true) ∧ (∃ p ∈ data, inQ01 toNumber lat lon p = true) ∧
  (∃ p ∈ data, inQ10 toNumber lat lon p = true) ∧ (∃ p ∈ data, inQ11 toNumber lat lon p = true)

/-- The point `p` is the first point of `l` that satisfies `Q`: no earlier
point of `l` does. -/
def IsFirstIn (Q : WeatherPoint → Bool) (l : List WeatherPoint) (p : WeatherPoint) : Prop :=
  ∃ l1 l2, l = l1 ++ p :: l2 ∧ Q p = true ∧ ∀ q ∈ l1, Q q = false

/-- The point `p` is the last point of `l` that satisfies `Q`: no later
point of `l` does. -/
def IsLastIn (Q : WeatherPoint → Bool) (l : List WeatherPoint) (p : WeatherPoint) : Prop :=
  ∃ l1 l2, l = l1 ++ p :: l2 ∧ Q p = true ∧ ∀ q ∈ l2, Q q = false

/-- The assignments of the loop of `getSurroundingPoints` over all of `l`,
without the `break`. -/
def assignAll (toNumber : String → JSNum) (lat lon : JSNum) (l : List WeatherPoint)
    (q : Quad) : Quad :=
  l.foldl (fun q point => assignPoint toNumber lat lon point q) q

/-- The nodes that the body of the inner loop of `generateInterpolatedPoints`
pushes at the cell `(lat, lon)`: none or one. -/
def cellNodes (ar : Arith) (parseFloat toNumber : String → JSNum) (data : List WeatherPoint)
    (lat lon : JSNum) : List GridNode :=
  (gridCell ar parseFloat toNumber data lat lon []).getD []

/-- Four points at the corners of the square from `(0, 0)` to `(2, 2)`. -/
def cornerPoints : List WeatherPoint :=
  [mkPoint "t" "0" "0" "10", mkPoint "t" "2" "0" "20",
   mkPoint "t" "0" "2" "30", mkPoint "t" "2" "2" "40"]

/-- Six points around `(1, 1)`: the first two lie in the quadrant
`lat <=, lon <=`, the sixth in the same quadrant as the fifth. -/
def quadrantPoints : List WeatherPoint :=
  [mkPoint "t" "0" "0" "1", mkPoint "t" "0.5" "0.5" "2", mkPoint "t" "2" "0" "3",
   mkPoint "t" "0" "2" "4", mkPoint "t" "2" "2" "5", mkPoint "t" "3" "3" "6"]

/-- The four corner points with an `sp` that does not parse at one corner. -/
def nanPoints : List WeatherPoint :=
  [mkPoint "t" "0" "0" "10", mkPoint "t" "2" "0" "n/a",
   mkPoint "t" "0" "2" "30", mkPoint "t" "2" "2" "40"]

/-- The cells `(minLat + i * latStep, minLon + j * lonStep)` for
`0 <= i <= g` and `0 <= j <= g`, in row-major order of `(i, j)`. -/
def rowMajorCells (minLat latStep minLon lonStep : ℚ) (g : Nat) : List (JSNum × JSNum) :=
  (List.range (g + 1)).flatMap (fun i : Nat =>
    (List.range (g + 1)).map (fun j : Nat =>
      (JSNum.fin (minLat + (i : ℚ) * latStep), JSNum.fin (minLon + (j : ℚ) * lonStep))))

/-- Four records of which two have the latitude `"0x10"`: `parseFloat` reads
it as 0 and the comparison operators coerce it to 16. -/
def hexPoints : List WeatherPoint :=
  [mkPoint "t" "0" "0" "10", mkPoint "t" "1" "1" "20",
   mkPoint "t" "0" "0x10" "30", mkPoint "t" "1" "0x10" "40"]

/-! ## Order facts on `JSNum` -/

namespace JSNum

theorem le_rfl_of_not_nan (a : JSNum) (h : a.isNaN = false) : le a a = true := by
  cases a <;> simp [le, isNaN] at h ⊢

theorem le_trans_bool (a b c : JSNum) (h1 : le a b = true) (h2 : le b c = true) :
    le a c = true := by
  cases a <;> cases b <;> cases c <;> simp [le] at h1 h2 ⊢
  exact h1.trans h2

theorem min2_spec (a b : JSNum) (ha : a.isNaN = false) (hb : b.isNaN = false) :
    (min2 a b).isNaN = false ∧ le (min2 a b) a = true ∧ le (min2 a b) b = true := by
  cases a <;> cases b <;> simp [min2, isNaN, lt, le] at ha hb ⊢
  rename_i x y
  by_cases h : y < x
  · simp [h, isNaN, le, le_of_lt h]
  · simp [h, isNaN, le, not_lt.1 h]

theorem max2_spec (a b : JSNum) (ha : a.isNaN = false) (hb : b.isNaN = false) :
    (max2 a b).isNaN = false ∧ le a (max2 a b) = true ∧ le b (max2 a b) = true := by
  cases a <;> cases b <;> simp [max2, isNaN, lt, le] at ha hb ⊢
  rename_i x y
  by_cases h : x < y
  · simp [h, isNaN, le, le_of_lt h]
  · simp [h, isNaN, le, not_lt.1 h]

theorem foldl_min2_nan (xs : List JSNum) : xs.foldl min2 nan = nan := by
  induction xs with
  | nil => rfl
  | cons x xs ih => simpa [List.foldl_cons, min2, isNaN] using ih

theorem foldl_max2_nan (xs : List JSNum) : xs.foldl max2 nan = nan := by
  induction xs with
  | nil => rfl
  | cons x xs ih => simpa [List.foldl_cons, max2, isNaN] using ih

theorem foldl_min2_of_nan_mem (xs : List JSNum) (h : nan ∈ xs) (a : JSNum) :
    xs.foldl min2 a = nan := by
  induction xs generalizing a with
  | nil => simp at h
  | cons x xs ih =>
      rcases List.mem_cons.1 h with e | m
      · subst e
        have : min2 a nan = nan := by simp [min2, isNaN]
        simp [List.foldl_cons, this, foldl_min2_nan]
      · simpa [List.foldl_cons] using ih m _

theorem foldl_max2_of_nan_mem (xs : List JSNum) (h : nan ∈ xs) (a : JSNum) :
    xs.foldl max2 a = nan := by
  induction xs generalizing a with
  | nil => simp at h
  | cons x xs ih =>
      rcases List.mem_cons.1 h with e | m
      · subst e
        have : max2 a nan = nan := by simp [max2, isNaN]
        simp [List.foldl_cons, this, foldl_max2_nan]
      · simpa [List.foldl_cons] using ih m _

theorem foldl_min2_spec (xs : List JSNum) (hx : ∀ x ∈ xs, x.isNaN = false) (a : JSNum)
    (ha : a.isNaN = false) :
    (xs.foldl min2 a).isNaN = false ∧ le (xs.foldl min2 a) a = true ∧
      ∀ x ∈ xs, le (xs.foldl min2 a) x = true := by
  induction xs generalizing a with
  | nil => simp [le_rfl_of_not_nan a ha, ha]
  | cons y ys ih =>
      have hy : y.isNaN = false := hx y (List.mem_cons_self _ _)
      obtain ⟨m1, m2, m3⟩ := min2_spec a y ha hy
      obtain ⟨i1, i2, i3⟩ := ih (fun x h => hx x (List.mem_cons_of_mem _ h)) (min2 a y) m1
      refine ⟨i1, le_trans_bool _ _ _ i2 m2, ?_⟩
      intro x hxm
      rcases List.mem_cons.1 hxm with e | m
      · subst e; exact le_trans_bool _ _ _ i2 m3
      · exact i3 x m

theorem foldl_max2_spec (xs : List JSNum) (hx : ∀ x ∈ xs, x.isNaN = false) (a : JSNum)
    (ha : a.isNaN = false) :
    (xs.foldl max2 a).isNaN = false ∧ le a (xs.foldl max2 a) = true ∧
      ∀ x ∈ xs, le x (xs.foldl max2 a) = true := by
  induction xs generalizing a with
  | nil => simp [le_rfl_of_not_nan a ha, ha]
  | cons y ys ih =>
      have hy : y.isNaN = false := hx y (List.mem_cons_self _ _)
      obtain ⟨m1, m2, m3⟩ := max2_spec a y ha hy
      obtain ⟨i1, i2, i3⟩ := ih (fun x h => hx x (List.mem_cons_of_mem _ h)) (max2 a y) m1
      refine ⟨i1, le_trans_bool _ _ _ m2 i2, ?_⟩
      intro x hxm
      rcases List.mem_cons.1 hxm with e | m
      · subst e; exact le_trans_bool _ _ _ m3 i2
      · exact i3 x m

end JSNum

/-! ## Strings: `split` and `includes` -/

theorem splitChars_of_not_mem (sep : Char) (s : List Char) (h : sep ∉ s) :
    splitChars sep s = [s] := by
  induction s with
  | nil => rfl
  | cons c cs ih =>
      have hc : c ≠ sep := fun e => h (e ▸ List.mem_cons_self _ _)
      have hcs : sep ∉ cs := fun m => h (List.mem_cons_of_mem _ m)
      simp [splitChars, hc, ih hcs]

theorem splitChars_append_sep (sep : Char) (d t : List Char) (h : sep ∉ d) :
    splitChars sep (d ++ sep :: t) = d :: splitChars sep t := by
  induction d with
  | nil => simp [splitChars]
  | cons c cs ih =>
      have hc : c ≠ sep := fun e => h (e ▸ List.mem_cons_self _ _)
      have hcs : sep ∉ cs := fun m => h (List.mem_cons_of_mem _ m)
      simp [splitChars, hc, ih hcs]

theorem includesChars_iff (s t : List Char) :
    includesChars s t = true ↔ t <:+: s := by
  induction s with
  | nil => simp [includesChars, List.isEmpty_iff]
  | cons c cs ih =>
      simp only [includesChars, Bool.or_eq_true, ih, List.infix_cons_iff]
      simp

/-! ## `convertISO8601ToAzureDateTime` and `filterPointsByDateTime` -/

/-- C4: an input `d + "T" + t` whose two parts hold no `T` is converted to
`d + " " + t + ":00"`, and an input without any `T` gives `null`. -/
theorem convertISO8601ToAzureDateTime_spec :
    (∀ d t : String, 'T' ∉ d.data → 'T' ∉ t.data →
      convertISO8601ToAzureDateTime (d ++ "T" ++ t) = some (d ++ " " ++ t ++ ":00")) ∧
    (∀ s : String, 'T' ∉ s.data → convertISO8601ToAzureDateTime s = none) := by
  constructor
  · intro d t hd ht
    have e : (d ++ "T" ++ t).data = d.data ++ 'T' :: t.data := by
      simp [String.data_append]
    unfold convertISO8601ToAzureDateTime split
    rw [e, splitChars_append_sep _ _ _ hd, splitChars_of_not_mem _ _ ht]
    rfl
  · intro s hs
    simp [convertISO8601ToAzureDateTime, split, splitChars_of_not_mem _ _ hs]

/-- The conversion at `"2022-10-05" + "T" + "00:00"` and at `"2022-10-05"`. -/
theorem convertISO8601ToAzureDateTime_spec_witness :
    ('T' ∉ "2022-10-05".data ∧ 'T' ∉ "00:00".data) ∧
    convertISO8601ToAzureDateTime ("2022-10-05" ++ "T" ++ "00:00")
      = some ("2022-10-05" ++ " " ++ "00:00" ++ ":00") ∧
    convertISO8601ToAzureDateTime "2022-10-05" = none :=
  ⟨by decide,
   convertISO8601ToAzureDateTime_spec.1 "2022-10-05" "00:00" (by decide) (by decide),
   convertISO8601ToAzureDateTime_spec.2 "2022-10-05" (by decide)⟩

theorem convertISO8601ToAzureDateTime_example :
    convertISO8601ToAzureDateTime "2022-10-05T00:00" = some "2022-10-05 00:00:00" ∧
    convertISO8601ToAzureDateTime "2022-10-05 00:00" = none ∧
    convertISO8601ToAzureDateTime "aTbTc" = none := by decide

theorem strictEq_some_iff (a : Option String) (b : String) :
    strictEq a (some b) = true ↔ a = some b := by
  cases a <;> simp [strictEq]

/-- C3: the result of `filterPointsByDateTime` is a sublist of the input,
it is the input restricted to the records whose `time` is the target, and a
record is in it exactly when it is in the input with `time` equal to the
target. -/
theorem filterPointsByDateTime_spec (points : List WeatherPoint) (target : String) :
    List.Sublist (filterPointsByDateTime points (some target)) points ∧
    filterPointsByDateTime points (some target)
      = points.filter (fun r => decide (r.time = some target)) ∧
    (∀ r, r ∈ filterPointsByDateTime points (some target) ↔ r ∈ points ∧ r.time = some target) := by
  refine ⟨List.filter_sublist _, ?_, ?_⟩
  · unfold filterPointsByDateTime
    apply List.filter_congr
    intro r _
    cases h : r.time <;> simp [strictEq]
  · intro r
    simp [filterPointsByDateTime, List.mem_filter, strictEq_some_iff]

/-! ## `getDataWithinRegion` -/

theorem filterRows_cons (parseFloat : String → JSNum) (inside : JSNum → JSNum → Bool)
    (seen : List (JSNum × JSNum)) (r : WeatherPoint) (rest : List WeatherPoint) :
    filterRows parseFloat inside seen (r :: rest) =
      if validCoord parseFloat r = true then
        if coordOf parseFloat r ∈ seen then filterRows parseFloat inside seen rest
        else if inside (onField parseFloat r.longitude) (onField parseFloat r.latitude) = true then
          r :: filterRows parseFloat inside (coordOf parseFloat r :: seen) rest
        else filterRows parseFloat inside (coordOf parseFloat r :: seen) rest
      else filterRows parseFloat inside seen rest := by
  by_cases hv : validCoord parseFloat r = true
  · have hv2 : (!(onField parseFloat r.longitude).isNaN &&
        !(onField parseFloat r.latitude).isNaN) = true := hv
    by_cases hm : coordOf parseFloat r ∈ seen
    · have hm2 : (onField parseFloat r.longitude, onField parseFloat r.latitude) ∈ seen := hm
      simp [filterRows, hv, hv2, hm, hm2]
    · have hm2 : (onField parseFloat r.longitude, onField parseFloat r.latitude) ∉ seen := hm
      cases hi : inside (onField parseFloat r.longitude) (onField parseFloat r.latitude) <;>
        simp [filterRows, hv, hv2, hm, hm2, hi, coordOf]
  · have hv2 : (!(onField parseFloat r.longitude).isNaN &&
        !(onField parseFloat r.latitude).isNaN) = false := by
      simpa [validCoord] using hv
    simp [filterRows, hv, hv2]

theorem filterPointsByDateTime_cons (r : WeatherPoint) (rest : List WeatherPoint)
    (target : String) :
    filterPointsByDateTime (r :: rest) (some target) =
      if r.time = some target then r :: filterPointsByDateTime rest (some target)
      else filterPointsByDateTime rest (some target) := by
  by_cases h : r.time = some target
  · have : strictEq r.time (some target) = true := (strictEq_some_iff _ _).2 h
    simp only [filterPointsByDateTime, List.filter_cons, this, if_pos h, if_true]
  · have : strictEq r.time (some target) = false := by
      cases e : strictEq r.time (some target)
      · rfl
      · exact absurd ((strictEq_some_iff _ _).1 e) h
    simp only [filterPointsByDateTime, List.filter_cons, this, if_neg h]
    simp

theorem filterPointsByDateTime_null (points : List WeatherPoint) :
    filterPointsByDateTime points none = [] := by
  unfold filterPointsByDateTime
  apply List.filter_eq_nil_iff.2
  intro r _
  cases r.time <;> simp [strictEq]

theorem filterRows_mem (parseFloat : String → JSNum) (inside : JSNum → JSNum → Bool) :
    ∀ (pts : List WeatherPoint) (seen : List (JSNum × JSNum)) (x : WeatherPoint),
      x ∈ filterRows parseFloat inside seen pts →
        x ∈ pts ∧ validCoord parseFloat x = true ∧
        inside (onField parseFloat x.longitude) (onField parseFloat x.latitude) = true ∧
        coordOf parseFloat x ∉ seen := by
  intro pts
  induction pts with
  | nil => intro seen x hx; simp [filterRows] at hx
  | cons r rest ih =>
      intro seen x hx
      rw [filterRows_cons] at hx
      by_cases hv : validCoord parseFloat r = true
      · by_cases hm : coordOf parseFloat r ∈ seen
        · simp only [hv, hm, if_true] at hx
          obtain ⟨h1, h2, h3, h4⟩ := ih seen x hx
          exact ⟨List.mem_cons_of_mem _ h1, h2, h3, h4⟩
        · by_cases hi : inside (onField parseFloat r.longitude) (onField parseFloat r.latitude) = true
          · simp only [hv, hm, hi, if_true, if_false] at hx
            rcases List.mem_cons.1 hx with e | hx2
            · subst e
              exact ⟨List.mem_cons_self _ _, hv, hi, hm⟩
            · obtain ⟨h1, h2, h3, h4⟩ := ih _ x hx2
              exact ⟨List.mem_cons_of_mem _ h1, h2, h3, fun h => h4 (List.mem_cons_of_mem _ h)⟩
          · simp only [hv, hm, hi, if_true, if_false] at hx
            obtain ⟨h1, h2, h3, h4⟩ := ih _ x hx
            exact ⟨List.mem_cons_of_mem _ h1, h2, h3, fun h => h4 (List.mem_cons_of_mem _ h)⟩
      · simp only [hv, if_false] at hx
        obtain ⟨h1, h2, h3, h4⟩ := ih seen x hx
        exact ⟨List.mem_cons_of_mem _ h1, h2, h3, h4⟩

theorem filterRows_nodup (parseFloat : String → JSNum) (inside : JSNum → JSNum → Bool) :
    ∀ (pts : List WeatherPoint) (seen : List (JSNum × JSNum)),
      ((filterRows parseFloat inside seen pts).map (coordOf parseFloat)).Nodup := by
  intro pts
  induction pts with
  | nil => intro seen; simp [filterRows]
  | cons r rest ih =>
      intro seen
      rw [filterRows_cons]
      by_cases hv : validCoord parseFloat r = true
      · by_cases hm : coordOf parseFloat r ∈ seen
        · simp only [hv, hm, if_true]
          exact ih seen
        · by_cases hi : inside (onField parseFloat r.longitude) (onField parseFloat r.latitude) = true
          · simp only [hv, hm, hi, if_true, if_false, List.map_cons]
            refine List.nodup_cons.2 ⟨?_, ih _⟩
            intro hmem
            obtain ⟨x, hx, hxc⟩ := List.mem_map.1 hmem
            have := (filterRows_mem parseFloat inside rest _ x hx).2.2.2
            exact this (hxc ▸ List.mem_cons_self _ _)
          · simp only [hv, hm, hi, if_true, if_false]
            exact ih _
      · simp only [hv, if_false]
        exact ih seen

theorem keptAfter_eq_true_iff (parseFloat : String → JSNum) (inside : JSNum → JSNum → Bool)
    (target : String) (earlier : List WeatherPoint) (r : WeatherPoint) :
    keptAfter parseFloat inside target earlier r = true ↔
      r.time = some target ∧ validCoord parseFloat r = true ∧
      inside (onField parseFloat r.longitude) (onField parseFloat r.latitude) = true ∧
      ∀ q ∈ earlier, q.time = some target → coordOf parseFloat q ≠ coordOf parseFloat r := by
  simp only [keptAfter, Bool.and_eq_true, decide_eq_true_eq, List.all_eq_true, Bool.not_eq_true',
    Bool.and_eq_false_imp, decide_eq_false_iff_not, and_assoc, ne_eq]

theorem validCoord_of_coordOf_eq (parseFloat : String → JSNum) (q r : WeatherPoint)
    (h : coordOf parseFloat q = coordOf parseFloat r) (hr : validCoord parseFloat r = true) :
    validCoord parseFloat q = true := by
  have h1 : onField parseFloat q.longitude = onField parseFloat r.longitude :=
    congrArg Prod.fst h
  have h2 : onField parseFloat q.latitude = onField parseFloat r.latitude :=
    congrArg Prod.snd h
  simpa [validCoord, h1, h2] using hr

/-- The loop of the filter with the set `seen` agrees with the record by
record rule, when `seen` holds the coordinates of the valid records with the
target time scanned so far. -/
theorem filterRows_eq_regionFilterSpec (parseFloat : String → JSNum)
    (inside : JSNum → JSNum → Bool) (target : String) :
    ∀ (pts earlier : List WeatherPoint) (seen : List (JSNum × JSNum)),
      (∀ c, c ∈ seen ↔ ∃ q ∈ earlier, q.time = some target ∧
        validCoord parseFloat q = true ∧ coordOf parseFloat q = c) →
      filterRows parseFloat inside seen (filterPointsByDateTime pts (some target))
        = regionFilterSpec parseFloat inside target earlier pts := by
  intro pts
  induction pts with
  | nil => intro earlier seen _; simp [filterPointsByDateTime, filterRows, regionFilterSpec]
  | cons r rest ih =>
      intro earlier seen hseen
      rw [filterPointsByDateTime_cons, regionFilterSpec]
      by_cases ht : r.time = some target
      · rw [if_pos ht, filterRows_cons]
        by_cases hv : validCoord parseFloat r = true
        · rw [if_pos hv]
          by_cases hm : coordOf parseFloat r ∈ seen
          · rw [if_pos hm]
            have hk : keptAfter parseFloat inside target earlier r = false := by
              cases e : keptAfter parseFloat inside target earlier r
              · rfl
              · obtain ⟨q, hq, hqt, _, hqc⟩ := (hseen _).1 hm
                exact absurd hqc (((keptAfter_eq_true_iff _ _ _ _ _).1 e).2.2.2 q hq hqt)
            rw [hk]
            simp only [Bool.false_eq_true, if_false]
            apply ih
            intro c
            rw [hseen c]
            constructor
            · rintro ⟨q, hq, h⟩
              exact ⟨q, List.mem_append_left _ hq, h⟩
            · rintro ⟨q, hq, h1, h2, h3⟩
              rcases List.mem_append.1 hq with hq1 | hq1
              · exact ⟨q, hq1, h1, h2, h3⟩
              · have e : q = r := by simpa using hq1
                subst e
                exact (hseen c).1 (h3 ▸ hm)
          · rw [if_neg hm]
            have hseen2 : ∀ c, c ∈ coordOf parseFloat r :: seen ↔
                ∃ q ∈ earlier ++ [r], q.time = some target ∧
                  validCoord parseFloat q = true ∧ coordOf parseFloat q = c := by
              intro c
              constructor
              · intro hc
                rcases List.mem_cons.1 hc with e | hc1
                · exact ⟨r, by simp, ht, hv, e.symm⟩
                · obtain ⟨q, hq, h⟩ := (hseen c).1 hc1
                  exact ⟨q, List.mem_append_left _ hq, h⟩
              · rintro ⟨q, hq, h1, h2, h3⟩
                rcases List.mem_append.1 hq with hq1 | hq1
                · exact List.mem_cons_of_mem _ ((hseen c).2 ⟨q, hq1, h1, h2, h3⟩)
                · have e : q = r := by simpa using hq1
                  subst e
                  exact h3 ▸ List.mem_cons_self _ _
            by_cases hi : inside (onField parseFloat r.longitude) (onField parseFloat r.latitude) = true
            · have hk : keptAfter parseFloat inside target earlier r = true := by
                refine (keptAfter_eq_true_iff _ _ _ _ _).2 ⟨ht, hv, hi, ?_⟩
                intro q hq hqt hqc
                exact hm ((hseen _).2
                  ⟨q, hq, hqt, validCoord_of_coordOf_eq parseFloat q r hqc hv, hqc⟩)
              rw [if_pos hi, hk]
              simp only [if_true]
              rw [ih _ _ hseen2]
            · have hk : keptAfter parseFloat inside target earlier r = false := by
                cases e : keptAfter parseFloat inside target earlier r
                · rfl
                · exact absurd ((keptAfter_eq_true_iff _ _ _ _ _).1 e).2.2.1 hi
              rw [if_neg hi, hk]
              simp only [Bool.false_eq_true, if_false]
              exact ih _ _ hseen2
        · rw [if_neg hv]
          have hk : keptAfter parseFloat inside target earlier r = false := by
            cases e : keptAfter parseFloat inside target earlier r
            · rfl
            · exact absurd ((keptAfter_eq_true_iff _ _ _ _ _).1 e).2.1 hv
          rw [hk]
          simp only [Bool.false_eq_true, if_false]
          apply ih
          intro c
          rw [hseen c]
          constructor
          · rintro ⟨q, hq, h⟩
            exact ⟨q, List.mem_append_left _ hq, h⟩
          · rintro ⟨q, hq, h1, h2, h3⟩
            rcases List.mem_append.1 hq with hq1 | hq1
            · exact ⟨q, hq1, h1, h2, h3⟩
            · have e : q = r := by simpa using hq1
              subst e
              exact absurd h2 hv
      · rw [if_neg ht]
        have hk : keptAfter parseFloat inside target earlier r = false := by
          cases e : keptAfter parseFloat inside target earlier r
          · rfl
          · exact absurd ((keptAfter_eq_true_iff _ _ _ _ _).1 e).1 ht
        rw [hk]
        simp only [Bool.false_eq_true, if_false]
        apply ih
        intro c
        rw [hseen c]
        constructor
        · rintro ⟨q, hq, h⟩
          exact ⟨q, List.mem_append_left _ hq, h⟩
        · rintro ⟨q, hq, h1, h2, h3⟩
          rcases List.mem_append.1 hq with hq1 | hq1
          · exact ⟨q, hq1, h1, h2, h3⟩
          · have e : q = r := by simpa using hq1
            subst e
            exact absurd h1 ht

theorem regionFilterSpec_sublist (parseFloat : String → JSNum) (inside : JSNum → JSNum → Bool)
    (target : String) :
    ∀ (pts earlier : List WeatherPoint),
      List.Sublist (regionFilterSpec parseFloat inside target earlier pts) pts := by
  intro pts
  induction pts with
  | nil => intro earlier; simp [regionFilterSpec]
  | cons r rest ih =>
      intro earlier
      rw [regionFilterSpec]
      split
      · exact (ih _).cons₂ r
      · exact (ih _).cons r

/-- C1: when the selected date-time normalises to `target`, the output of
`getDataWithinRegion` is the subsequence of the input, in scan order, of the
records whose time is `target`, whose coordinates parse, whose point is
inside, and whose parsed pair no earlier record with time `target` has. -/
theorem getDataWithinRegion_spec (parseFloat : String → JSNum) (inside : JSNum → JSNum → Bool)
    (points : List WeatherPoint) (selectedDateTime target : String)
    (h : convertISO8601ToAzureDateTime selectedDateTime = some target) :
    getDataWithinRegion parseFloat inside points selectedDateTime
      = regionFilterSpec parseFloat inside target [] points ∧
    List.Sublist (getDataWithinRegion parseFloat inside points selectedDateTime) points := by
  have e : getDataWithinRegion parseFloat inside points selectedDateTime
      = regionFilterSpec parseFloat inside target [] points := by
    unfold getDataWithinRegion
    simp only [h]
    exact filterRows_eq_regionFilterSpec parseFloat inside target points [] [] (by simp)
  exact ⟨e, e ▸ regionFilterSpec_sublist parseFloat inside target points []⟩

/-- C2: the parsed `(longitude, latitude)` pairs of the entries of the
output of `getDataWithinRegion` are pairwise different. -/
theorem getDataWithinRegion_nodup (parseFloat : String → JSNum) (inside : JSNum → JSNum → Bool)
    (points : List WeatherPoint) (selectedDateTime : String) :
    ((getDataWithinRegion parseFloat inside points selectedDateTime).map
      (coordOf parseFloat)).Nodup := by
  unfold getDataWithinRegion
  exact filterRows_nodup parseFloat inside _ _

/-- The end-to-end scenario at the unit square, checked against C1. -/
theorem getDataWithinRegion_spec_witness :
    convertISO8601ToAzureDateTime "2022-10-05T00:00" = some "2022-10-05 00:00:00" ∧
    getDataWithinRegion jsParseFloat unitSquare scenarioPoints "2022-10-05T00:00"
      = regionFilterSpec jsParseFloat unitSquare "2022-10-05 00:00:00" [] scenarioPoints ∧
    List.Sublist (getDataWithinRegion jsParseFloat unitSquare scenarioPoints "2022-10-05T00:00")
      scenarioPoints :=
  ⟨by decide,
   getDataWithinRegion_spec jsParseFloat unitSquare scenarioPoints "2022-10-05T00:00"
     "2022-10-05 00:00:00" (by decide)⟩

theorem getDataWithinRegion_scenario :
    getDataWithinRegion jsParseFloat unitSquare scenarioPoints "2022-10-05T00:00"
      = [mkPoint "2022-10-05 00:00:00" "0.1" "0.1" "10",
         mkPoint "2022-10-05 00:00:00" "0.9" "0.1" "10"] ∧
    regionFilterSpec jsParseFloat unitSquare "2022-10-05 00:00:00" [] scenarioPoints
      = [mkPoint "2022-10-05 00:00:00" "0.1" "0.1" "10",
         mkPoint "2022-10-05 00:00:00" "0.9" "0.1" "10"] := by
  decide!

theorem getDataWithinRegion_duplicates :
    getDataWithinRegion jsParseFloat unitSquare duplicatePoints "2022-10-05T00:00"
      = [mkPoint "2022-10-05 00:00:00" "0.5" "0.5" "2"] ∧
    getDataWithinRegion jsParseFloat unitSquare duplicatePoints "2022-10-05 00:00" = [] := by
  decide!

/-- The output does not depend on the coordinates in `seen` that the
containment test rejects. -/
theorem filterRows_congr_seen (parseFloat : String → JSNum) (inside : JSNum → JSNum → Bool) :
    ∀ (pts : List WeatherPoint) (seen seen2 : List (JSNum × JSNum)),
      (∀ c : JSNum × JSNum, inside c.1 c.2 = true → (c ∈ seen ↔ c ∈ seen2)) →
      filterRows parseFloat inside seen pts = filterRows parseFloat inside seen2 pts := by
  intro pts
  induction pts with
  | nil => intro seen seen2 _; simp [filterRows]
  | cons r rest ih =>
      intro seen seen2 h
      have hcons : ∀ c : JSNum × JSNum, inside c.1 c.2 = true →
          (c ∈ coordOf parseFloat r :: seen ↔ c ∈ coordOf parseFloat r :: seen2) := by
        intro c hc
        simp only [List.mem_cons, h c hc]
      rw [filterRows_cons, filterRows_cons]
      by_cases hv : validCoord parseFloat r = true
      · simp only [hv, if_true]
        by_cases hi : inside (onField parseFloat r.longitude) (onField parseFloat r.latitude) = true
        · have hiff := h (coordOf parseFloat r) hi
          by_cases hm : coordOf parseFloat r ∈ seen
          · rw [if_pos hm, if_pos (hiff.1 hm)]
            exact ih _ _ h
          · rw [if_neg hm, if_neg (fun h2 => hm (hiff.2 h2)), if_pos hi, if_pos hi, ih _ _ hcons]
        · have hl : ∀ c : JSNum × JSNum, inside c.1 c.2 = true →
              (c ∈ coordOf parseFloat r :: seen ↔ c ∈ seen2) := by
            intro c hc
            have hne : c ≠ coordOf parseFloat r := by
              intro e
              rw [e] at hc
              exact hi hc
            simp only [List.mem_cons, hne, false_or, h c hc]
          have hr : ∀ c : JSNum × JSNum, inside c.1 c.2 = true →
              (c ∈ seen ↔ c ∈ coordOf parseFloat r :: seen2) := by
            intro c hc
            have hne : c ≠ coordOf parseFloat r := by
              intro e
              rw [e] at hc
              exact hi hc
            simp only [List.mem_cons, hne, false_or, h c hc]
          by_cases hm : coordOf parseFloat r ∈ seen <;>
            by_cases hm2 : coordOf parseFloat r ∈ seen2
          · rw [if_pos hm, if_pos hm2]; exact ih _ _ h
          · rw [if_pos hm, if_neg hm2, if_neg hi]; exact ih _ _ hr
          · rw [if_neg hm, if_pos hm2, if_neg hi]; exact ih _ _ hl
          · rw [if_neg hm, if_neg hm2, if_neg hi, if_neg hi]; exact ih _ _ hcons
      · simp only [hv, if_false]
        exact ih _ _ h

/-- A record that the filter rejects for its coordinates (invalid, or not
inside) can be taken out of the input without changing the output. -/
theorem filterRows_skip (parseFloat : String → JSNum) (inside : JSNum → JSNum → Bool)
    (f : WeatherPoint → Bool) (r : WeatherPoint) (post : List WeatherPoint)
    (hr : validCoord parseFloat r = false ∨
      inside (onField parseFloat r.longitude) (onField parseFloat r.latitude) = false) :
    ∀ (pre : List WeatherPoint) (seen : List (JSNum × JSNum)),
      filterRows parseFloat inside seen ((pre ++ r :: post).filter f)
        = filterRows parseFloat inside seen ((pre ++ post).filter f) := by
  intro pre
  induction pre with
  | nil =>
      intro seen
      simp only [List.nil_append, List.filter_cons]
      cases hf : f r
      · simp
      · simp only [if_true]
        rw [filterRows_cons]
        by_cases hv : validCoord parseFloat r = true
        · have hi : inside (onField parseFloat r.longitude) (onField parseFloat r.latitude)
              = false := by
            rcases hr with h | h
            · rw [hv] at h; exact absurd h (by decide)
            · exact h
          rw [if_pos hv]
          by_cases hm : coordOf parseFloat r ∈ seen
          · rw [if_pos hm]
          · rw [if_neg hm, if_neg (by simp [hi])]
            apply filterRows_congr_seen
            intro c hc
            have hne : c ≠ coordOf parseFloat r := by
              intro e
              rw [e] at hc
              have hc2 : inside (onField parseFloat r.longitude) (onField parseFloat r.latitude)
                  = true := hc
              rw [hi] at hc2
              exact absurd hc2 (by decide)
            simp only [List.mem_cons, hne, false_or]
        · rw [if_neg hv]
  | cons p pre ih =>
      intro seen
      simp only [List.cons_append, List.filter_cons]
      cases hf : f p
      · simpa using ih seen
      · simp only [if_true]
        rw [filterRows_cons, filterRows_cons, ih, ih]

theorem getDataWithinRegion_skip (parseFloat : String → JSNum) (inside : JSNum → JSNum → Bool)
    (pre : List WeatherPoint) (r : WeatherPoint) (post : List WeatherPoint)
    (selectedDateTime : String)
    (hr : validCoord parseFloat r = false ∨
      inside (onField parseFloat r.longitude) (onField parseFloat r.latitude) = false) :
    r ∉ getDataWithinRegion parseFloat inside (pre ++ r :: post) selectedDateTime ∧
    getDataWithinRegion parseFloat inside (pre ++ r :: post) selectedDateTime
      = getDataWithinRegion parseFloat inside (pre ++ post) selectedDateTime := by
  constructor
  · intro hmem
    obtain ⟨_, hv, hi, _⟩ := filterRows_mem parseFloat inside _ _ r hmem
    rcases hr with h | h
    · rw [hv] at h; exact absurd h (by decide)
    · rw [hi] at h; exact absurd h (by decide)
  · unfold getDataWithinRegion filterPointsByDateTime
    exact filterRows_skip parseFloat inside _ r post hr pre []

/-- C10: a record with a coordinate that does not parse to a finite number
never appears in the output of `getDataWithinRegion`, and the other records
are filtered as if it were absent (the filter is total: nothing is thrown).
For a coordinate that parses to `NaN` this holds by the `isNaN` guard, for
every containment test.  A coordinate that parses to an infinity passes the
guard and is left to `booleanPointInPolygon`; `inside` is the containment
test of a polygon, whose vertices are finite, so that it rejects every point
with an infinite coordinate: this is the hypothesis on `inside` of the
second part. -/
theorem getDataWithinRegion_invalid_coordinate (parseFloat : String → JSNum)
    (inside : JSNum → JSNum → Bool) (pre : List WeatherPoint) (r : WeatherPoint)
    (post : List WeatherPoint) (selectedDateTime : String) :
    ((onField parseFloat r.longitude).isNaN = true ∨
        (onField parseFloat r.latitude).isNaN = true →
      r ∉ getDataWithinRegion parseFloat inside (pre ++ r :: post) selectedDateTime ∧
      getDataWithinRegion parseFloat inside (pre ++ r :: post) selectedDateTime
        = getDataWithinRegion parseFloat inside (pre ++ post) selectedDateTime) ∧
    ((∀ lon lat : JSNum,
        lon = JSNum.posInf ∨ lon = JSNum.negInf ∨ lat = JSNum.posInf ∨ lat = JSNum.negInf →
        inside lon lat = false) →
      (onField parseFloat r.longitude).isFinite = false ∨
        (onField parseFloat r.latitude).isFinite = false →
      r ∉ getDataWithinRegion parseFloat inside (pre ++ r :: post) selectedDateTime ∧
      getDataWithinRegion parseFloat inside (pre ++ r :: post) selectedDateTime
        = getDataWithinRegion parseFloat inside (pre ++ post) selectedDateTime) := by
  constructor
  · intro h
    apply getDataWithinRegion_skip
    left
    rcases h with h | h <;> simp [validCoord, h]
  · intro hin h
    apply getDataWithinRegion_skip
    by_cases hv : validCoord parseFloat r = true
    · right
      apply hin
      simp only [validCoord, Bool.and_eq_true, Bool.not_eq_true'] at hv
      obtain ⟨h1, h2⟩ := hv
      rcases h with h | h
      · cases hl : onField parseFloat r.longitude <;>
          simp [hl, JSNum.isNaN, JSNum.isFinite] at h h1 ⊢
      · cases hl : onField parseFloat r.latitude <;>
          simp [hl, JSNum.isNaN, JSNum.isFinite] at h h2 ⊢
    · left
      simpa using hv

theorem unitSquare_rejects_infinite (lon lat : JSNum)
    (h : lon = JSNum.posInf ∨ lon = JSNum.negInf ∨ lat = JSNum.posInf ∨ lat = JSNum.negInf) :
    unitSquare lon lat = false := by
  cases lon <;> cases lat <;> simp [unitSquare, JSNum.le] at h ⊢

/-- The record with longitude `"abc"` and a record with longitude
`"Infinity"` in front of the unit square. -/
theorem getDataWithinRegion_invalid_coordinate_witness :
    ((onField jsParseFloat (mkPoint "2022-10-05 00:00:00" "abc" "0.5" "3").longitude).isNaN = true ∧
      mkPoint "2022-10-05 00:00:00" "abc" "0.5" "3" ∉
        getDataWithinRegion jsParseFloat unitSquare
          ([mkPoint "2022-10-05 00:00:00" "0.5" "0.5" "2"] ++
            mkPoint "2022-10-05 00:00:00" "abc" "0.5" "3" ::
            [mkPoint "2022-10-05 00:00:00" "0.9" "0.5" "4"]) "2022-10-05T00:00" ∧
      getDataWithinRegion jsParseFloat unitSquare
          ([mkPoint "2022-10-05 00:00:00" "0.5" "0.5" "2"] ++
            mkPoint "2022-10-05 00:00:00" "abc" "0.5" "3" ::
            [mkPoint "2022-10-05 00:00:00" "0.9" "0.5" "4"]) "2022-10-05T00:00"
        = getDataWithinRegion jsParseFloat unitSquare
          ([mkPoint "2022-10-05 00:00:00" "0.5" "0.5" "2"] ++
            [mkPoint "2022-10-05 00:00:00" "0.9" "0.5" "4"]) "2022-10-05T00:00") ∧
    ((onField jsParseFloat
        (mkPoint "2022-10-05 00:00:00" "Infinity" "0.5" "3").longitude).isFinite = false ∧
      mkPoint "2022-10-05 00:00:00" "Infinity" "0.5" "3" ∉
        getDataWithinRegion jsParseFloat unitSquare
          ([] ++ mkPoint "2022-10-05 00:00:00" "Infinity" "0.5" "3" ::
            [mkPoint "2022-10-05 00:00:00" "0.9" "0.5" "4"]) "2022-10-05T00:00" ∧
      getDataWithinRegion jsParseFloat unitSquare
          ([] ++ mkPoint "2022-10-05 00:00:00" "Infinity" "0.5" "3" ::
            [mkPoint "2022-10-05 00:00:00" "0.9" "0.5" "4"]) "2022-10-05T00:00"
        = getDataWithinRegion jsParseFloat unitSquare
          ([] ++ [mkPoint "2022-10-05 00:00:00" "0.9" "0.5" "4"]) "2022-10-05T00:00") :=
  ⟨⟨by decide!,
    (getDataWithinRegion_invalid_coordinate jsParseFloat unitSquare
      [mkPoint "2022-10-05 00:00:00" "0.5" "0.5" "2"]
      (mkPoint "2022-10-05 00:00:00" "abc" "0.5" "3")
      [mkPoint "2022-10-05 00:00:00" "0.9" "0.5" "4"] "2022-10-05T00:00").1
      (Or.inl (by decide!))⟩,
   ⟨by decide!,
    (getDataWithinRegion_invalid_coordinate jsParseFloat unitSquare []
      (mkPoint "2022-10-05 00:00:00" "Infinity" "0.5" "3")
      [mkPoint "2022-10-05 00:00:00" "0.9" "0.5" "4"] "2022-10-05T00:00").2
      unitSquare_rejects_infinite (Or.inl (by decide!))⟩⟩

/-! ## `findRegionRowInStream` -/

/-- C5: when some line contains the region name the result is the first
such line, and when none does the error `"Region not found"` is thrown. -/
theorem findRegionRowInStream_spec (lines : List String) (regionName : String) :
    ((∃ line ∈ lines, regionName.data <:+: line.data) →
      ∃ pre line post, lines = pre ++ line :: post ∧
        (∀ l ∈ pre, ¬ regionName.data <:+: l.data) ∧
        regionName.data <:+: line.data ∧
        findRegionRowInStream lines regionName = .ok line) ∧
    ((∀ line ∈ lines, ¬ regionName.data <:+: line.data) →
      findRegionRowInStream lines regionName = .error "Region not found") := by
  induction lines with
  | nil => simp [findRegionRowInStream]
  | cons l ls ih =>
      by_cases hl : regionName.data <:+: l.data
      · have hi : includes l regionName = true := (includesChars_iff _ _).2 hl
        refine ⟨fun _ => ⟨[], l, ls, rfl, by simp, hl, by simp [findRegionRowInStream, hi]⟩, ?_⟩
        intro h
        exact absurd hl (h l (List.mem_cons_self _ _))
      · have hi : includes l regionName = false := by
          cases h : includes l regionName
          · rfl
          · exact absurd ((includesChars_iff _ _).1 h) hl
        constructor
        · rintro ⟨line, hmem, hline⟩
          have hmem2 : line ∈ ls := by
            rcases List.mem_cons.1 hmem with e | m
            · exact absurd (e ▸ hline) hl
            · exact m
          obtain ⟨pre, x, post, e, hpre, hx, hres⟩ := ih.1 ⟨line, hmem2, hline⟩
          refine ⟨l :: pre, x, post, by simp [e], ?_, hx, by simp [findRegionRowInStream, hi, hres]⟩
          intro y hy
          rcases List.mem_cons.1 hy with e2 | m
          · exact e2 ▸ hl
          · exact hpre y m
        · intro h
          have := ih.2 (fun y hy => h y (List.mem_cons_of_mem _ hy))
          simp [findRegionRowInStream, hi, this]

/-- Region rows where two lines hold the name, and rows where none does. -/
theorem findRegionRowInStream_spec_witness :
    (∃ pre line post,
      ["id,name", "1,Harju maakond", "2,Tartu maakond", "3,Tartu linn"] = pre ++ line :: post ∧
      (∀ l ∈ pre, ¬ "Tartu".data <:+: l.data) ∧ "Tartu".data <:+: line.data ∧
      findRegionRowInStream ["id,name", "1,Harju maakond", "2,Tartu maakond", "3,Tartu linn"]
        "Tartu" = .ok line) ∧
    findRegionRowInStream ["id,name", "1,Harju maakond"] "Tartu" = .error "Region not found" :=
  ⟨(findRegionRowInStream_spec
      ["id,name", "1,Harju maakond", "2,Tartu maakond", "3,Tartu linn"] "Tartu").1
      ⟨"2,Tartu maakond", by decide, by decide⟩,
   (findRegionRowInStream_spec ["id,name", "1,Harju maakond"] "Tartu").2 (by decide)⟩

theorem findRegionRowInStream_example :
    findRegionRowInStream ["id,name", "1,Harju maakond", "2,Tartu maakond", "3,Tartu linn"] "Tartu"
      = .ok "2,Tartu maakond" ∧
    findRegionRowInStream ["id,name", "1,Harju maakond"] "Tartu" = .error "Region not found" ∧
    findRegionRowInStream ["1,Harju maakond"] "harju" = .error "Region not found" :=
  ⟨rfl, rfl, rfl⟩

/-! ## `bilinearInterpolation` -/

/-- C7: on four points whose `sp` parse to numbers `v00, v01, v10, v11` the
result is `(v00 + v01 + v10 + v11) / 4` as the machine computes this
expression, left to right, whatever `x` and `y` are; when the three sums and
the quotient are exact (as for 10, 20, 30, 40) that is the arithmetic mean
of the four values. -/
theorem bilinearInterpolation_mean (ar : Arith) (parseFloat : String → JSNum)
    (p00 p01 p10 p11 : WeatherPoint)
    (h00 : (onField parseFloat p00.sp).isNaN = false)
    (h01 : (onField parseFloat p01.sp).isNaN = false)
    (h10 : (onField parseFloat p10.sp).isNaN = false)
    (h11 : (onField parseFloat p11.sp).isNaN = false) :
    (∀ x y : JSNum,
      bilinearInterpolation ar parseFloat x y [some p00, some p01, some p10, some p11]
        = some (ar.div (ar.add (ar.add (ar.add (onField parseFloat p00.sp)
            (onField parseFloat p01.sp)) (onField parseFloat p10.sp))
            (onField parseFloat p11.sp)) (JSNum.fin 4))) ∧
    (∀ x y x2 y2 : JSNum,
      bilinearInterpolation ar parseFloat x y [some p00, some p01, some p10, some p11]
        = bilinearInterpolation ar parseFloat x2 y2 [some p00, some p01, some p10, some p11]) ∧
    (∀ v00 v01 v10 v11 : ℚ,
      onField parseFloat p00.sp = JSNum.fin v00 → onField parseFloat p01.sp = JSNum.fin v01 →
      onField parseFloat p10.sp = JSNum.fin v10 → onField parseFloat p11.sp = JSNum.fin v11 →
      ar.div (ar.add (ar.add (ar.add (JSNum.fin v00) (JSNum.fin v01)) (JSNum.fin v10))
          (JSNum.fin v11)) (JSNum.fin 4)
        = JSNum.fin ((v00 + v01 + v10 + v11) / 4) →
      ∀ x y : JSNum,
        bilinearInterpolation ar parseFloat x y [some p00, some p01, some p10, some p11]
          = some (JSNum.fin ((v00 + v01 + v10 + v11) / 4))) := by
  have key : ∀ x y : JSNum,
      bilinearInterpolation ar parseFloat x y [some p00, some p01, some p10, some p11]
        = some (ar.div (ar.add (ar.add (ar.add (onField parseFloat p00.sp)
            (onField parseFloat p01.sp)) (onField parseFloat p10.sp))
            (onField parseFloat p11.sp)) (JSNum.fin 4)) := by
    intro x y
    simp [bilinearInterpolation, nth, h00, h01, h10, h11]
  refine ⟨key, ?_, ?_⟩
  · intro x y x2 y2
    rw [key x y, key x2 y2]
  · intro v00 v01 v10 v11 e00 e01 e10 e11 hexact x y
    rw [key x y, e00, e01, e10, e11, hexact]

/-- The values 10, 20, 30, 40, whose sums and mean are exact, give 25 at two
different offsets. -/
theorem bilinearInterpolation_mean_witness :
    bilinearInterpolation exactArith jsParseFloat (JSNum.fin (1 / 2)) (JSNum.fin (1 / 4))
      [some (mkPoint "t" "0" "0" "10"), some (mkPoint "t" "1" "0" "20"),
       some (mkPoint "t" "0" "1" "30"), some (mkPoint "t" "1" "1" "40")]
      = some (JSNum.fin ((10 + 20 + 30 + 40) / 4)) ∧
    bilinearInterpolation exactArith jsParseFloat JSNum.nan JSNum.posInf
      [some (mkPoint "t" "0" "0" "10"), some (mkPoint "t" "1" "0" "20"),
       some (mkPoint "t" "0" "1" "30"), some (mkPoint "t" "1" "1" "40")]
      = some (JSNum.fin ((10 + 20 + 30 + 40) / 4)) :=
  have h := (bilinearInterpolation_mean exactArith jsParseFloat
    (mkPoint "t" "0" "0" "10") (mkPoint "t" "1" "0" "20")
    (mkPoint "t" "0" "1" "30") (mkPoint "t" "1" "1" "40")
    (by decide!) (by decide!) (by decide!) (by decide!)).2.2 10 20 30 40
    (by decide!) (by decide!) (by decide!) (by decide!) (by decide!)
  ⟨h _ _, h _ _⟩

theorem bilinearInterpolation_example :
    bilinearInterpolation exactArith jsParseFloat (JSNum.fin 0) (JSNum.fin 1)
      [some (mkPoint "t" "0" "0" "10"), some (mkPoint "t" "1" "0" "20"),
       some (mkPoint "t" "0" "1" "30"), some (mkPoint "t" "1" "1" "40")]
      = some (JSNum.fin 25) ∧
    bilinearInterpolation exactArith jsParseFloat (JSNum.fin 0) (JSNum.fin 1)
      [some (mkPoint "t" "0" "0" "10"), some (mkPoint "t" "1" "0" "x"),
       some (mkPoint "t" "0" "1" "30"), some (mkPoint "t" "1" "1" "40")]
      = some JSNum.nan ∧
    bilinearInterpolation exactArith jsParseFloat (JSNum.fin 0) (JSNum.fin 1)
      [some (mkPoint "t" "0" "0" "10"), none,
       some (mkPoint "t" "0" "1" "30"), some (mkPoint "t" "1" "1" "40")]
      = none := by
  decide!

/-! ## `getSurroundingPoints` -/

theorem assignPoint_p00 (toNumber : String → JSNum) (lat lon : JSNum) (p : WeatherPoint)
    (q : Quad) :
    (assignPoint toNumber lat lon p q).p00
      = if inQ00 toNumber lat lon p = true then some p else q.p00 := by
  unfold assignPoint
  split_ifs <;> rfl

theorem assignPoint_p01 (toNumber : String → JSNum) (lat lon : JSNum) (p : WeatherPoint)
    (q : Quad) :
    (assignPoint toNumber lat lon p q).p01
      = if inQ01 toNumber lat lon p = true then some p else q.p01 := by
  unfold assignPoint
  split_ifs <;> rfl

theorem assignPoint_p10 (toNumber : String → JSNum) (lat lon : JSNum) (p : WeatherPoint)
    (q : Quad) :
    (assignPoint toNumber lat lon p q).p10
      = if inQ10 toNumber lat lon p = true then some p else q.p10 := by
  unfold assignPoint
  split_ifs <;> rfl

theorem assignPoint_p11 (toNumber : String → JSNum) (lat lon : JSNum) (p : WeatherPoint)
    (q : Quad) :
    (assignPoint toNumber lat lon p q).p11
      = if inQ11 toNumber lat lon p = true then some p else q.p11 := by
  unfold assignPoint
  split_ifs <;> rfl

theorem assignAll_append_singleton (toNumber : String → JSNum) (lat lon : JSNum)
    (l : List WeatherPoint) (x : WeatherPoint) (q : Quad) :
    assignAll toNumber lat lon (l ++ [x]) q
      = assignPoint toNumber lat lon x (assignAll toNumber lat lon l q) := by
  simp [assignAll, List.foldl_append]

theorem IsLastIn.append_singleton {Q : WeatherPoint → Bool} {l : List WeatherPoint}
    {p : WeatherPoint} (h : IsLastIn Q l p) (x : WeatherPoint) (hx : Q x = false) :
    IsLastIn Q (l ++ [x]) p := by
  obtain ⟨l1, l2, e, hp, hl⟩ := h
  refine ⟨l1, l2 ++ [x], by simp [e], hp, ?_⟩
  intro y hy
  rcases List.mem_append.1 hy with m | m
  · exact hl y m
  · have : y = x := by simpa using m
    exact this ▸ hx

/-- A variable of the loop that is assigned exactly at the points
satisfying `Q` keeps its value when no point of `l` satisfies `Q`, and else
ends as the last point of `l` that satisfies `Q`. -/
theorem assignAll_field (toNumber : String → JSNum) (lat lon : JSNum)
    (f : Quad → Option WeatherPoint) (Q : WeatherPoint → Bool)
    (hf : ∀ p q, f (assignPoint toNumber lat lon p q) = if Q p = true then some p else f q)
    (l : List WeatherPoint) (q : Quad) :
    ((∀ p ∈ l, Q p = false) → f (assignAll toNumber lat lon l q) = f q) ∧
    ((∃ p ∈ l, Q p = true) →
      ∃ p, f (assignAll toNumber lat lon l q) = some p ∧ IsLastIn Q l p) := by
  induction l using List.reverseRecOn with
  | nil => simp [assignAll]
  | append_singleton l x ih =>
      rw [assignAll_append_singleton, hf]
      cases hx : Q x
      · simp only [Bool.false_eq_true, if_false]
        constructor
        · intro h
          exact ih.1 (fun p hp => h p (List.mem_append_left _ hp))
        · rintro ⟨p, hp, hQ⟩
          have hp2 : p ∈ l := by
            rcases List.mem_append.1 hp with m | m
            · exact m
            · have : p = x := by simpa using m
              rw [this, hx] at hQ
              exact absurd hQ (by decide)
          obtain ⟨r, hr, hlast⟩ := ih.2 ⟨p, hp2, hQ⟩
          exact ⟨r, hr, hlast.append_singleton x hx⟩
      · simp only [if_true]
        constructor
        · intro h
          have := h x (by simp)
          rw [hx] at this
          exact absurd this (by decide)
        · intro _
          exact ⟨x, rfl, l, [], rfl, hx, by simp⟩

/-- The loop with its `break` performs the assignments over a prefix
`scanned` of the data: it stops at the end of the data or at the first
point after which the four variables are all set. -/
theorem surroundingLoop_spec (toNumber : String → JSNum) (lat lon : JSNum) :
    ∀ (data : List WeatherPoint) (q : Quad),
      ∃ scanned rest, data = scanned ++ rest ∧
        surroundingLoop toNumber lat lon data q = assignAll toNumber lat lon scanned q ∧
        (rest ≠ [] → (assignAll toNumber lat lon scanned q).full = true) ∧
        (∀ pre suf, scanned = pre ++ suf → pre ≠ [] → suf ≠ [] →
          (assignAll toNumber lat lon pre q).full = false) := by
  intro data
  induction data with
  | nil =>
      intro q
      refine ⟨[], [], rfl, rfl, fun h => absurd rfl h, ?_⟩
      intro pre suf e hpre _
      have : pre = [] := (List.append_eq_nil.1 e.symm).1
      exact absurd this hpre
  | cons p rest ih =>
      intro q
      cases hfull : (assignPoint toNumber lat lon p q).full
      · obtain ⟨scanned, rest2, e, hres, hrest, hpre⟩ := ih (assignPoint toNumber lat lon p q)
        refine ⟨p :: scanned, rest2, by simp [e], ?_, ?_, ?_⟩
        · simp only [surroundingLoop, hfull, Bool.false_eq_true, if_false]
          exact hres
        · exact hrest
        · intro pre suf e2 hne hsuf
          cases pre with
          | nil => exact absurd rfl hne
          | cons x pre2 =>
              have hx : x = p := by
                have := congrArg List.head? e2
                simpa using this.symm
              have e3 : scanned = pre2 ++ suf := by
                have := congrArg List.tail e2
                simpa using this
              subst hx
              by_cases hp2 : pre2 = []
              · subst hp2
                exact hfull
              · exact hpre pre2 suf e3 hp2 hsuf
      · refine ⟨[p], rest, rfl, ?_, fun _ => hfull, ?_⟩
        · simp [surroundingLoop, hfull, assignAll]
        · intro pre suf e hne hsuf
          cases pre with
          | nil => exact absurd rfl hne
          | cons x pre2 =>
              have : pre2 ++ suf = [] := by
                have := congrArg List.tail e
                simpa using this.symm
              exact absurd (List.append_eq_nil.1 this).2 hsuf

/-- Without the `break`, the four variables are all set exactly when the
four quadrants hold a point of the list. -/
theorem assignAll_full_iff (toNumber : String → JSNum) (lat lon : JSNum)
    (l : List WeatherPoint) :
    (assignAll toNumber lat lon l ⟨none, none, none, none⟩).full = true ↔
      AllQuadrants toNumber lat lon l := by
  have f00 := assignAll_field toNumber lat lon Quad.p00 (inQ00 toNumber lat lon)
    (assignPoint_p00 toNumber lat lon) l ⟨none, none, none, none⟩
  have f01 := assignAll_field toNumber lat lon Quad.p01 (inQ01 toNumber lat lon)
    (assignPoint_p01 toNumber lat lon) l ⟨none, none, none, none⟩
  have f10 := assignAll_field toNumber lat lon Quad.p10 (inQ10 toNumber lat lon)
    (assignPoint_p10 toNumber lat lon) l ⟨none, none, none, none⟩
  have f11 := assignAll_field toNumber lat lon Quad.p11 (inQ11 toNumber lat lon)
    (assignPoint_p11 toNumber lat lon) l ⟨none, none, none, none⟩
  have key : ∀ (f : Quad → Option WeatherPoint) (Q : WeatherPoint → Bool),
      f ⟨none, none, none, none⟩ = none →
      ((∀ p ∈ l, Q p = false) →
        f (assignAll toNumber lat lon l ⟨none, none, none, none⟩) = f ⟨none, none, none, none⟩) →
      (f (assignAll toNumber lat lon l ⟨none, none, none, none⟩)).isSome = true →
      ∃ p ∈ l, Q p = true := by
    intro f Q h0 h1 hs
    by_contra hne
    have hall : ∀ p ∈ l, Q p = false := by
      intro p hp
      cases hq : Q p
      · rfl
      · exact absurd ⟨p, hp, hq⟩ hne
    rw [h1 hall, h0] at hs
    exact absurd hs (by decide)
  constructor
  · intro hfull
    simp only [Quad.full, Bool.and_eq_true] at hfull
    obtain ⟨⟨⟨h0, h1⟩, h2⟩, h3⟩ := hfull
    exact ⟨key _ _ rfl f00.1 h0, key _ _ rfl f01.1 h1, key _ _ rfl f10.1 h2,
      key _ _ rfl f11.1 h3⟩
  · rintro ⟨h0, h1, h2, h3⟩
    obtain ⟨a, ha, _⟩ := f00.2 h0
    obtain ⟨b, hb, _⟩ := f01.2 h1
    obtain ⟨c, hc, _⟩ := f10.2 h2
    obtain ⟨d, hd, _⟩ := f11.2 h3
    simp [Quad.full, ha, hb, hc, hd]

theorem AllQuadrants.mono {toNumber : String → JSNum} {lat lon : JSNum}
    {l1 : List WeatherPoint} (h : AllQuadrants toNumber lat lon l1) (l2 : List WeatherPoint) :
    AllQuadrants toNumber lat lon (l1 ++ l2) := by
  obtain ⟨⟨a, ha, qa⟩, ⟨b, hb, qb⟩, ⟨c, hc, qc⟩, ⟨d, hd, qd⟩⟩ := h
  exact ⟨⟨a, List.mem_append_left _ ha, qa⟩, ⟨b, List.mem_append_left _ hb, qb⟩,
    ⟨c, List.mem_append_left _ hc, qc⟩, ⟨d, List.mem_append_left _ hd, qd⟩⟩

/-- The loop of `getSurroundingPoints` ends with the four variables all set
exactly when the four quadrants hold a point of the data. -/
theorem surroundingLoop_full_iff (toNumber : String → JSNum) (lat lon : JSNum)
    (data : List WeatherPoint) :
    (surroundingLoop toNumber lat lon data ⟨none, none, none, none⟩).full = true ↔
      AllQuadrants toNumber lat lon data := by
  obtain ⟨scanned, rest, e, hres, hrest, _⟩ :=
    surroundingLoop_spec toNumber lat lon data ⟨none, none, none, none⟩
  rw [hres]
  constructor
  · intro h
    rw [e]
    exact ((assignAll_full_iff toNumber lat lon scanned).1 h).mono rest
  · intro h
    by_cases hr : rest = []
    · subst hr
      rw [List.append_nil] at e
      subst e
      exact (assignAll_full_iff toNumber lat lon data).2 h
    · exact hrest hr

/-- C6, as the code has it: when the four quadrants are populated, the loop
stops at the end of the shortest prefix of the data that populates the four
quadrants, and each of the four returned points is the last point of that
prefix that lies in its quadrant. -/
theorem getSurroundingPoints_last (toNumber : String → JSNum) (lat lon : JSNum)
    (data : List WeatherPoint) (h : AllQuadrants toNumber lat lon data) :
    ∃ scanned x rest a b c d,
      data = scanned ++ x :: rest ∧
      ¬ AllQuadrants toNumber lat lon scanned ∧
      getSurroundingPoints toNumber lat lon data = [some a, some b, some c, some d] ∧
      IsLastIn (inQ00 toNumber lat lon) (scanned ++ [x]) a ∧
      IsLastIn (inQ01 toNumber lat lon) (scanned ++ [x]) b ∧
      IsLastIn (inQ10 toNumber lat lon) (scanned ++ [x]) c ∧
      IsLastIn (inQ11 toNumber lat lon) (scanned ++ [x]) d := by
  have hfull := (surroundingLoop_full_iff toNumber lat lon data).2 h
  obtain ⟨scanned0, rest, e, hres, _, hpre⟩ :=
    surroundingLoop_spec toNumber lat lon data ⟨none, none, none, none⟩
  rw [hres] at hfull
  rcases List.eq_nil_or_concat scanned0 with hnil | ⟨scanned, x, hcat⟩
  · subst hnil
    exact absurd hfull (by simp [assignAll, Quad.full])
  · rw [List.concat_eq_append] at hcat
    subst hcat
    have hq := (assignAll_full_iff toNumber lat lon (scanned ++ [x])).1 hfull
    obtain ⟨a, ha, la⟩ := (assignAll_field toNumber lat lon Quad.p00 (inQ00 toNumber lat lon)
      (assignPoint_p00 toNumber lat lon) (scanned ++ [x]) ⟨none, none, none, none⟩).2 hq.1
    obtain ⟨b, hb, lb⟩ := (assignAll_field toNumber lat lon Quad.p01 (inQ01 toNumber lat lon)
      (assignPoint_p01 toNumber lat lon) (scanned ++ [x]) ⟨none, none, none, none⟩).2 hq.2.1
    obtain ⟨c, hc, lc⟩ := (assignAll_field toNumber lat lon Quad.p10 (inQ10 toNumber lat lon)
      (assignPoint_p10 toNumber lat lon) (scanned ++ [x]) ⟨none, none, none, none⟩).2 hq.2.2.1
    obtain ⟨d, hd, ld⟩ := (assignAll_field toNumber lat lon Quad.p11 (inQ11 toNumber lat lon)
      (assignPoint_p11 toNumber lat lon) (scanned ++ [x]) ⟨none, none, none, none⟩).2 hq.2.2.2
    refine ⟨scanned, x, rest, a, b, c, d, by simp [e], ?_, ?_, la, lb, lc, ld⟩
    · intro hs
      have hnf : (assignAll toNumber lat lon scanned ⟨none, none, none, none⟩).full = false := by
        by_cases hsn : scanned = []
        · subst hsn
          simp [assignAll, Quad.full]
        · exact hpre scanned [x] rfl hsn (by simp)
      rw [(assignAll_full_iff toNumber lat lon scanned).2 hs] at hnf
      exact absurd hnf (by decide)
    · simp only [getSurroundingPoints, hres, ha, hb, hc, hd]

theorem IsFirstIn.find_eq {Q : WeatherPoint → Bool} {l : List WeatherPoint} {p : WeatherPoint}
    (h : IsFirstIn Q l p) : l.find? Q = some p := by
  obtain ⟨l1, l2, e, hp, hl⟩ := h
  subst e
  induction l1 with
  | nil => simp [List.find?, hp]
  | cons y ys ih =>
      have hy : Q y = false := hl y (List.mem_cons_self _ _)
      simp only [List.cons_append, List.find?, hy]
      exact ih (fun q hq => hl q (List.mem_cons_of_mem _ hq))

theorem allQuadrants_quadrantPoints :
    AllQuadrants jsToNumber (JSNum.fin 1) (JSNum.fin 1) quadrantPoints :=
  ⟨⟨mkPoint "t" "0" "0" "1", by decide, by decide!⟩,
   ⟨mkPoint "t" "2" "0" "3", by decide, by decide!⟩,
   ⟨mkPoint "t" "0" "2" "4", by decide, by decide!⟩,
   ⟨mkPoint "t" "2" "2" "5", by decide, by decide!⟩⟩

/-- The six points around `(1, 1)`: the loop stops after the fifth. -/
theorem getSurroundingPoints_last_witness :
    ∃ scanned x rest a b c d,
      quadrantPoints = scanned ++ x :: rest ∧
      ¬ AllQuadrants jsToNumber (JSNum.fin 1) (JSNum.fin 1) scanned ∧
      getSurroundingPoints jsToNumber (JSNum.fin 1) (JSNum.fin 1) quadrantPoints
        = [some a, some b, some c, some d] ∧
      IsLastIn (inQ00 jsToNumber (JSNum.fin 1) (JSNum.fin 1)) (scanned ++ [x]) a ∧
      IsLastIn (inQ01 jsToNumber (JSNum.fin 1) (JSNum.fin 1)) (scanned ++ [x]) b ∧
      IsLastIn (inQ10 jsToNumber (JSNum.fin 1) (JSNum.fin 1)) (scanned ++ [x]) c ∧
      IsLastIn (inQ11 jsToNumber (JSNum.fin 1) (JSNum.fin 1)) (scanned ++ [x]) d :=
  getSurroundingPoints_last jsToNumber (JSNum.fin 1) (JSNum.fin 1) quadrantPoints
    allQuadrants_quadrantPoints

/-- C6 as stated fails: around `(1, 1)` the four quadrants are populated,
the point returned for the quadrant `lat <=, lon <=` is the second point of
the data, and the first point of the data lies in that quadrant too. -/
theorem getSurroundingPoints_first_counterexample :
    AllQuadrants jsToNumber (JSNum.fin 1) (JSNum.fin 1) quadrantPoints ∧
    getSurroundingPoints jsToNumber (JSNum.fin 1) (JSNum.fin 1) quadrantPoints
      = [some (mkPoint "t" "0.5" "0.5" "2"), some (mkPoint "t" "2" "0" "3"),
         some (mkPoint "t" "0" "2" "4"), some (mkPoint "t" "2" "2" "5")] ∧
    inQ00 jsToNumber (JSNum.fin 1) (JSNum.fin 1) (mkPoint "t" "0" "0" "1") = true ∧
    ¬ IsFirstIn (inQ00 jsToNumber (JSNum.fin 1) (JSNum.fin 1)) quadrantPoints
      (mkPoint "t" "0.5" "0.5" "2") := by
  refine ⟨allQuadrants_quadrantPoints, by decide!, by decide!, ?_⟩
  intro h
  have h2 := h.find_eq
  revert h2
  decide!

/-! ## The cells of `generateInterpolatedPoints` -/

/-- The body of the inner loop leaves the array as it is when a quadrant
has no point, and else pushes one node with the coordinates of the cell; it
never throws. -/
theorem gridCell_spec (ar : Arith) (parseFloat toNumber : String → JSNum) (data : List WeatherPoint)
    (lat lon : JSNum) :
    ((surroundingLoop toNumber lat lon data ⟨none, none, none, none⟩).full = false →
      ∀ acc, gridCell ar parseFloat toNumber data lat lon acc = some acc) ∧
    ((surroundingLoop toNumber lat lon data ⟨none, none, none, none⟩).full = true →
      ∃ v, ∀ acc, gridCell ar parseFloat toNumber data lat lon acc
        = some (acc ++ [{ latitude := lat, longitude := lon, sp := v }])) := by
  unfold gridCell getSurroundingPoints
  generalize surroundingLoop toNumber lat lon data ⟨none, none, none, none⟩ = q
  rcases q with ⟨a, b, c, d⟩
  cases a <;> cases b <;> cases c <;> cases d <;> simp [Quad.full, nth, bilinearInterpolation]
  rename_i a b c d
  split
  · exact ⟨_, fun acc => rfl⟩
  · exact ⟨_, fun acc => rfl⟩

theorem gridCell_eq_append (ar : Arith) (parseFloat toNumber : String → JSNum) (data : List WeatherPoint)
    (lat lon : JSNum) (acc : List GridNode) :
    gridCell ar parseFloat toNumber data lat lon acc
      = some (acc ++ cellNodes ar parseFloat toNumber data lat lon) := by
  have h := gridCell_spec ar parseFloat toNumber data lat lon
  cases hf : (surroundingLoop toNumber lat lon data ⟨none, none, none, none⟩).full
  · simp [cellNodes, h.1 hf]
  · obtain ⟨v, hv⟩ := h.2 hf
    simp [cellNodes, hv]

theorem cellNodes_eq (ar : Arith) (parseFloat toNumber : String → JSNum) (data : List WeatherPoint)
    (lat lon : JSNum) :
    (¬ AllQuadrants toNumber lat lon data → cellNodes ar parseFloat toNumber data lat lon = []) ∧
    (AllQuadrants toNumber lat lon data →
      ∃ v, cellNodes ar parseFloat toNumber data lat lon
        = [{ latitude := lat, longitude := lon, sp := v }]) := by
  have h := gridCell_spec ar parseFloat toNumber data lat lon
  constructor
  · intro hq
    have hf : (surroundingLoop toNumber lat lon data ⟨none, none, none, none⟩).full = false := by
      cases e : (surroundingLoop toNumber lat lon data ⟨none, none, none, none⟩).full
      · rfl
      · exact absurd ((surroundingLoop_full_iff toNumber lat lon data).1 e) hq
    simp [cellNodes, h.1 hf]
  · intro hq
    obtain ⟨v, hv⟩ := h.2 ((surroundingLoop_full_iff toNumber lat lon data).2 hq)
    exact ⟨v, by simp [cellNodes, hv]⟩

/-- Two loops with the same bounds whose bodies commute with a map of the
state give results that are related by the map. -/
theorem forLoop_map {σ τ : Type} (F : σ → τ) (ar : Arith) (bound step : JSNum)
    (body1 : JSNum → σ → Option σ) (body2 : JSNum → τ → Option τ)
    (h : ∀ v s, body2 v (F s) = (body1 v s).map F) :
    ∀ (fuel : Nat) (v : JSNum) (s : σ),
      forLoop ar bound step body2 fuel v (F s) = (forLoop ar bound step body1 fuel v s).map F := by
  intro fuel
  induction fuel with
  | zero => intro v s; rfl
  | succ n ih =>
      intro v s
      simp only [forLoop]
      split
      · rw [h]
        cases hb : body1 v s with
        | none => rfl
        | some s1 => simpa using ih _ s1
      · rfl

theorem gridLoops_map {σ τ : Type} (F : σ → τ) (ar : Arith) (g : Grid)
    (cell1 : JSNum → JSNum → σ → Option σ) (cell2 : JSNum → JSNum → τ → Option τ)
    (h : ∀ lat lon s, cell2 lat lon (F s) = (cell1 lat lon s).map F) (fuel : Nat) (init : σ) :
    gridLoops ar g cell2 fuel (F init) = (gridLoops ar g cell1 fuel init).map F := by
  unfold gridLoops
  apply forLoop_map
  intro lat s
  apply forLoop_map
  intro lon s1
  exact h lat lon s1

/-- The result of `generateInterpolatedPoints` is the concatenation, over
the visited cells in order, of the nodes pushed at each cell. -/
theorem generateInterpolatedPoints_eq (ar : Arith) (parseFloat toNumber : String → JSNum) (fuel : Nat)
    (data : List WeatherPoint) (gridSize : JSNum) :
    generateInterpolatedPoints ar parseFloat toNumber fuel data gridSize
      = (visitedCells ar parseFloat fuel data gridSize).map
          (fun cells => cells.flatMap (fun c => cellNodes ar parseFloat toNumber data c.1 c.2)) := by
  unfold generateInterpolatedPoints visitedCells
  have := gridLoops_map
    (fun cells : List (JSNum × JSNum) =>
      cells.flatMap (fun c => cellNodes ar parseFloat toNumber data c.1 c.2))
    ar (gridOf ar parseFloat data gridSize)
    (fun lat lon cells => some (cells ++ [(lat, lon)]))
    (gridCell ar parseFloat toNumber data)
    (by intro lat lon s; simp [gridCell_eq_append]) fuel []
  simpa using this

theorem getSurroundingPoints_defined_iff (toNumber : String → JSNum) (lat lon : JSNum)
    (data : List WeatherPoint) :
    (∀ p ∈ getSurroundingPoints toNumber lat lon data, p ≠ none) ↔
      AllQuadrants toNumber lat lon data := by
  rw [← surroundingLoop_full_iff]
  unfold getSurroundingPoints
  rcases surroundingLoop toNumber lat lon data ⟨none, none, none, none⟩ with ⟨a, b, c, d⟩
  cases a <;> cases b <;> cases c <;> cases d <;> simp [Quad.full]

/-- C8: at every cell `(lat, lon)` the body of the loops pushes one node
with the latitude and longitude of the cell when the four quadrants relative
to the cell hold a point of the data, and pushes nothing otherwise; the
four quadrants hold a point exactly when `getSurroundingPoints` returns four
defined points; and whenever the loops end, a node with the coordinates of a
visited cell is in the result exactly when the four quadrants of the cell
hold a point. -/
theorem generateInterpolatedPoints_node_iff (ar : Arith) (parseFloat toNumber : String → JSNum)
    (data : List WeatherPoint) :
    (∀ (lat lon : JSNum) (acc : List GridNode),
      (AllQuadrants toNumber lat lon data →
        ∃ v, gridCell ar parseFloat toNumber data lat lon acc
          = some (acc ++ [{ latitude := lat, longitude := lon, sp := v }])) ∧
      (¬ AllQuadrants toNumber lat lon data →
        gridCell ar parseFloat toNumber data lat lon acc = some acc) ∧
      ((∀ p ∈ getSurroundingPoints toNumber lat lon data, p ≠ none) ↔
        AllQuadrants toNumber lat lon data)) ∧
    (∀ (fuel : Nat) (gridSize : JSNum) (cells : List (JSNum × JSNum)),
      visitedCells ar parseFloat fuel data gridSize = some cells →
      ∃ nodes, generateInterpolatedPoints ar parseFloat toNumber fuel data gridSize = some nodes ∧
        ∀ lat lon, (lat, lon) ∈ cells →
          ((∃ n ∈ nodes, n.latitude = lat ∧ n.longitude = lon) ↔
            AllQuadrants toNumber lat lon data)) := by
  constructor
  · intro lat lon acc
    refine ⟨?_, ?_, getSurroundingPoints_defined_iff toNumber lat lon data⟩
    · intro hq
      obtain ⟨v, hv⟩ := (cellNodes_eq ar parseFloat toNumber data lat lon).2 hq
      exact ⟨v, by rw [gridCell_eq_append, hv]⟩
    · intro hq
      rw [gridCell_eq_append, (cellNodes_eq ar parseFloat toNumber data lat lon).1 hq]
      simp
  · intro fuel gridSize cells hc
    refine ⟨cells.flatMap (fun c => cellNodes ar parseFloat toNumber data c.1 c.2), ?_, ?_⟩
    · rw [generateInterpolatedPoints_eq, hc]; rfl
    · intro lat lon hmem
      constructor
      · rintro ⟨n, hn, hlat, hlon⟩
        obtain ⟨c, _, hnc⟩ := List.mem_flatMap.1 hn
        by_cases hq : AllQuadrants toNumber c.1 c.2 data
        · obtain ⟨v, hv⟩ := (cellNodes_eq ar parseFloat toNumber data c.1 c.2).2 hq
          rw [hv] at hnc
          have hn2 : n = { latitude := c.1, longitude := c.2, sp := v } := by simpa using hnc
          rw [hn2] at hlat hlon
          simp only at hlat hlon
          rw [← hlat, ← hlon]
          exact hq
        · rw [(cellNodes_eq ar parseFloat toNumber data c.1 c.2).1 hq] at hnc
          simp at hnc
      · intro hq
        obtain ⟨v, hv⟩ := (cellNodes_eq ar parseFloat toNumber data lat lon).2 hq
        refine ⟨{ latitude := lat, longitude := lon, sp := v }, ?_, rfl, rfl⟩
        exact List.mem_flatMap.2 ⟨(lat, lon), hmem, by simp [hv]⟩

theorem allQuadrants_cornerPoints :
    AllQuadrants jsToNumber (JSNum.fin 1) (JSNum.fin 1) cornerPoints :=
  ⟨⟨mkPoint "t" "0" "0" "10", by decide, by decide!⟩,
   ⟨mkPoint "t" "2" "0" "20", by decide, by decide!⟩,
   ⟨mkPoint "t" "0" "2" "30", by decide, by decide!⟩,
   ⟨mkPoint "t" "2" "2" "40", by decide, by decide!⟩⟩

theorem not_allQuadrants_cornerPoints :
    ¬ AllQuadrants jsToNumber (JSNum.fin 2) (JSNum.fin 1) cornerPoints := by
  rintro ⟨_, _, ⟨p, hp, hq⟩, _⟩
  revert p
  decide!

/-- The four corner points at the resolution 2: the cell `(1, 1)` gives a
node, the cell `(2, 1)` on the maximum row gives none, and nine cells are
visited. -/
theorem generateInterpolatedPoints_node_iff_witness :
    (∃ v, gridCell exactArith jsParseFloat jsToNumber cornerPoints (JSNum.fin 1) (JSNum.fin 1) []
      = some ([] ++ [{ latitude := JSNum.fin 1, longitude := JSNum.fin 1, sp := v }])) ∧
    gridCell exactArith jsParseFloat jsToNumber cornerPoints (JSNum.fin 2) (JSNum.fin 1) [] = some [] ∧
    (visitedCells exactArith jsParseFloat 10 cornerPoints (JSNum.fin 2)
      = some [(JSNum.fin 0, JSNum.fin 0), (JSNum.fin 0, JSNum.fin 1), (JSNum.fin 0, JSNum.fin 2),
              (JSNum.fin 1, JSNum.fin 0), (JSNum.fin 1, JSNum.fin 1), (JSNum.fin 1, JSNum.fin 2),
              (JSNum.fin 2, JSNum.fin 0), (JSNum.fin 2, JSNum.fin 1), (JSNum.fin 2, JSNum.fin 2)] ∧
    ∃ nodes, generateInterpolatedPoints exactArith jsParseFloat jsToNumber 10 cornerPoints (JSNum.fin 2)
        = some nodes ∧
      ∀ lat lon, (lat, lon) ∈
          [(JSNum.fin 0, JSNum.fin 0), (JSNum.fin 0, JSNum.fin 1), (JSNum.fin 0, JSNum.fin 2),
           (JSNum.fin 1, JSNum.fin 0), (JSNum.fin 1, JSNum.fin 1), (JSNum.fin 1, JSNum.fin 2),
           (JSNum.fin 2, JSNum.fin 0), (JSNum.fin 2, JSNum.fin 1), (JSNum.fin 2, JSNum.fin 2)] →
        ((∃ n ∈ nodes, n.latitude = lat ∧ n.longitude = lon) ↔
          AllQuadrants jsToNumber lat lon cornerPoints)) :=
  ⟨((generateInterpolatedPoints_node_iff exactArith jsParseFloat jsToNumber cornerPoints).1
      (JSNum.fin 1) (JSNum.fin 1) []).1 allQuadrants_cornerPoints,
   ((generateInterpolatedPoints_node_iff exactArith jsParseFloat jsToNumber cornerPoints).1
      (JSNum.fin 2) (JSNum.fin 1) []).2.1 not_allQuadrants_cornerPoints,
   by decide!,
   (generateInterpolatedPoints_node_iff exactArith jsParseFloat jsToNumber cornerPoints).2 10
     (JSNum.fin 2) _ (by decide!)⟩

theorem generateInterpolatedPoints_example :
    generateInterpolatedPoints exactArith jsParseFloat jsToNumber 10 cornerPoints (JSNum.fin 2)
      = some [⟨JSNum.fin 0, JSNum.fin 0, JSNum.fin 25⟩, ⟨JSNum.fin 0, JSNum.fin 1, JSNum.fin 25⟩,
              ⟨JSNum.fin 1, JSNum.fin 0, JSNum.fin 25⟩, ⟨JSNum.fin 1, JSNum.fin 1, JSNum.fin 25⟩] ∧
    generateInterpolatedPoints exactArith jsParseFloat jsToNumber 50 [mkPoint "t" "0" "0" "10"] (JSNum.fin 2)
      = none ∧
    generateInterpolatedPoints exactArith jsParseFloat jsToNumber 50 [] (JSNum.fin 30) = some [] := by
  decide!

/-! ## The grid steps of `generateInterpolatedPoints` -/

/-- A loop whose variable is within the bound and is not changed by the
update never ends: no fuel gives a result. -/
theorem forLoop_stuck {σ : Type} (ar : Arith) (bound step : JSNum)
    (body : JSNum → σ → Option σ) (v : JSNum) (hadd : ar.add v step = v)
    (hle : JSNum.le v bound = true) :
    ∀ (fuel : Nat) (s : σ), forLoop ar bound step body fuel v s = none := by
  intro fuel
  induction fuel with
  | zero => intro s; rfl
  | succ n ih =>
      intro s
      simp only [forLoop, hle, if_true, hadd]
      cases body v s with
      | none => rfl
      | some s1 => exact ih s1

/-- With a latitude step that leaves `minLat` unchanged and
`minLat <= maxLat`, `generateInterpolatedPoints` never returns. -/
theorem generateInterpolatedPoints_stuck (ar : Arith) (parseFloat toNumber : String → JSNum)
    (data : List WeatherPoint) (gridSize : JSNum)
    (hadd : ar.add (gridOf ar parseFloat data gridSize).minLat
      (gridOf ar parseFloat data gridSize).latStep = (gridOf ar parseFloat data gridSize).minLat)
    (hle : JSNum.le (gridOf ar parseFloat data gridSize).minLat
      (gridOf ar parseFloat data gridSize).maxLat = true) (fuel : Nat) :
    generateInterpolatedPoints ar parseFloat toNumber fuel data gridSize = none := by
  unfold generateInterpolatedPoints gridLoops
  exact forLoop_stuck ar _ _ _ _ hadd hle fuel []

/-- C9 fails on the code at the filtered point set of one record with the
resolution 30: both steps are 0, not strictly positive, and then the loops
never end, so that no array is returned (the subtraction `0.25 - 0.25`, the
division `0 / 30` and the addition `0.25 + 0` are exact). -/
theorem generateInterpolatedPoints_zero_step :
    getDataWithinRegion jsParseFloat unitSquare
        [mkPoint "2022-10-05 00:00:00" "0.5" "0.25" "101000"] "2022-10-05T00:00"
      = [mkPoint "2022-10-05 00:00:00" "0.5" "0.25" "101000"] ∧
    (gridOf exactArith jsParseFloat [mkPoint "2022-10-05 00:00:00" "0.5" "0.25" "101000"]
      (JSNum.fin 30)).latStep = JSNum.fin 0 ∧
    (gridOf exactArith jsParseFloat [mkPoint "2022-10-05 00:00:00" "0.5" "0.25" "101000"]
      (JSNum.fin 30)).lonStep = JSNum.fin 0 ∧
    JSNum.lt (JSNum.fin 0) (gridOf exactArith jsParseFloat
      [mkPoint "2022-10-05 00:00:00" "0.5" "0.25" "101000"] (JSNum.fin 30)).latStep = false ∧
    JSNum.lt (JSNum.fin 0) (gridOf exactArith jsParseFloat
      [mkPoint "2022-10-05 00:00:00" "0.5" "0.25" "101000"] (JSNum.fin 30)).lonStep = false ∧
    ∀ fuel : Nat,
      generateInterpolatedPoints exactArith jsParseFloat jsToNumber fuel
        [mkPoint "2022-10-05 00:00:00" "0.5" "0.25" "101000"] (JSNum.fin 30) = none :=
  ⟨by decide!, by decide!, by decide!, by decide!, by decide!,
   generateInterpolatedPoints_stuck exactArith jsParseFloat jsToNumber _ _
     (by decide!) (by decide!)⟩

/-! ## Cells with a value that does not parse -/

theorem bilinearInterpolation_nan (ar : Arith) (parseFloat : String → JSNum) (x y : JSNum)
    (a b c d : WeatherPoint)
    (hnan : (onField parseFloat a.sp).isNaN = true ∨ (onField parseFloat b.sp).isNaN = true ∨
      (onField parseFloat c.sp).isNaN = true ∨ (onField parseFloat d.sp).isNaN = true) :
    bilinearInterpolation ar parseFloat x y [some a, some b, some c, some d] = some JSNum.nan := by
  rcases hnan with h | h | h | h <;> simp [bilinearInterpolation, nth, h]

theorem gridCell_nan (ar : Arith) (parseFloat toNumber : String → JSNum) (data : List WeatherPoint)
    (lat lon : JSNum) (a b c d : WeatherPoint)
    (hs : getSurroundingPoints toNumber lat lon data = [some a, some b, some c, some d])
    (hnan : (onField parseFloat a.sp).isNaN = true ∨ (onField parseFloat b.sp).isNaN = true ∨
      (onField parseFloat c.sp).isNaN = true ∨ (onField parseFloat d.sp).isNaN = true)
    (acc : List GridNode) :
    gridCell ar parseFloat toNumber data lat lon acc
      = some (acc ++ [{ latitude := lat, longitude := lon, sp := JSNum.nan }]) := by
  unfold gridCell
  rw [hs]
  simp [nth, bilinearInterpolation_nan ar parseFloat _ _ a b c d hnan]

/-- C11: at a cell whose four surrounding points are all found and where the
`sp` of one of them does not parse, `bilinearInterpolation` returns `NaN`,
the body of the loops pushes a node with the coordinates of the cell and the
value `NaN`, and whenever the loops end that node is in the result for every
visited cell of this kind. -/
theorem generateInterpolatedPoints_nan_node (ar : Arith) (parseFloat toNumber : String → JSNum)
    (data : List WeatherPoint) (lat lon : JSNum) (a b c d : WeatherPoint)
    (hs : getSurroundingPoints toNumber lat lon data = [some a, some b, some c, some d])
    (hnan : (onField parseFloat a.sp).isNaN = true ∨ (onField parseFloat b.sp).isNaN = true ∨
      (onField parseFloat c.sp).isNaN = true ∨ (onField parseFloat d.sp).isNaN = true) :
    (∀ x y : JSNum,
      bilinearInterpolation ar parseFloat x y (getSurroundingPoints toNumber lat lon data)
        = some JSNum.nan) ∧
    (∀ acc : List GridNode,
      gridCell ar parseFloat toNumber data lat lon acc
        = some (acc ++ [{ latitude := lat, longitude := lon, sp := JSNum.nan }])) ∧
    (∀ (fuel : Nat) (gridSize : JSNum) (cells : List (JSNum × JSNum)),
      visitedCells ar parseFloat fuel data gridSize = some cells → (lat, lon) ∈ cells →
      ∃ nodes, generateInterpolatedPoints ar parseFloat toNumber fuel data gridSize = some nodes ∧
        { latitude := lat, longitude := lon, sp := JSNum.nan } ∈ nodes) := by
  refine ⟨?_, gridCell_nan ar parseFloat toNumber data lat lon a b c d hs hnan, ?_⟩
  · intro x y
    rw [hs]
    exact bilinearInterpolation_nan ar parseFloat x y a b c d hnan
  · intro fuel gridSize cells hc hmem
    refine ⟨cells.flatMap (fun c => cellNodes ar parseFloat toNumber data c.1 c.2), ?_, ?_⟩
    · rw [generateInterpolatedPoints_eq, hc]; rfl
    · refine List.mem_flatMap.2 ⟨(lat, lon), hmem, ?_⟩
      simp [cellNodes, gridCell_nan ar parseFloat toNumber data lat lon a b c d hs hnan []]

/-- The corner points with one `sp` that does not parse, at the cell
`(1, 1)` of the grid of resolution 2. -/
theorem generateInterpolatedPoints_nan_node_witness :
    (bilinearInterpolation exactArith jsParseFloat (JSNum.fin 0) (JSNum.fin 0)
        (getSurroundingPoints jsToNumber (JSNum.fin 1) (JSNum.fin 1) nanPoints)
      = some JSNum.nan) ∧
    (gridCell exactArith jsParseFloat jsToNumber nanPoints (JSNum.fin 1) (JSNum.fin 1) []
      = some ([] ++ [{ latitude := JSNum.fin 1, longitude := JSNum.fin 1, sp := JSNum.nan }])) ∧
    (∃ nodes, generateInterpolatedPoints exactArith jsParseFloat jsToNumber 10 nanPoints (JSNum.fin 2)
        = some nodes ∧
      { latitude := JSNum.fin 1, longitude := JSNum.fin 1, sp := JSNum.nan } ∈ nodes) :=
  have h := generateInterpolatedPoints_nan_node exactArith jsParseFloat jsToNumber nanPoints
    (JSNum.fin 1) (JSNum.fin 1) (mkPoint "t" "0" "0" "10") (mkPoint "t" "2" "0" "n/a")
    (mkPoint "t" "0" "2" "30") (mkPoint "t" "2" "2" "40") (by decide!)
    (Or.inr (Or.inl (by decide!)))
  ⟨h.1 _ _, h.2.1 [],
   h.2.2 10 (JSNum.fin 2)
     [(JSNum.fin 0, JSNum.fin 0), (JSNum.fin 0, JSNum.fin 1), (JSNum.fin 0, JSNum.fin 2),
      (JSNum.fin 1, JSNum.fin 0), (JSNum.fin 1, JSNum.fin 1), (JSNum.fin 1, JSNum.fin 2),
      (JSNum.fin 2, JSNum.fin 0), (JSNum.fin 2, JSNum.fin 1), (JSNum.fin 2, JSNum.fin 2)]
     (by decide!) (by decide!)⟩

theorem generateInterpolatedPoints_nan_example :
    generateInterpolatedPoints exactArith jsParseFloat jsToNumber 10 nanPoints (JSNum.fin 2)
      = some [⟨JSNum.fin 0, JSNum.fin 0, JSNum.nan⟩, ⟨JSNum.fin 0, JSNum.fin 1, JSNum.nan⟩,
              ⟨JSNum.fin 1, JSNum.fin 0, JSNum.nan⟩, ⟨JSNum.fin 1, JSNum.fin 1, JSNum.nan⟩] := by
  decide!

/-! ## Termination of `generateInterpolatedPoints` -/

/-- A loop from `v` with a finite step and bound, whose body appends `h x`
at the value `x`, ends after `n` iterations when the values `v + i * s` for
`i < n` are within the bound, `v + n * s` is not, and the `n` additions of
the step are exact; it needs `n + 1` tests of its condition. -/
theorem forLoop_range {β : Type} (ar : Arith) (b s : ℚ)
    (body : JSNum → List β → Option (List β))
    (h : JSNum → List β) (hb : ∀ x st, body x st = some (st ++ h x)) :
    ∀ (n fuel : Nat) (v : ℚ) (st : List β), n < fuel →
      (∀ i : Nat, i < n → v + i * s ≤ b) → ¬ (v + n * s ≤ b) →
      (∀ i : Nat, i < n →
        ar.add (JSNum.fin (v + i * s)) (JSNum.fin s) = JSNum.fin (v + (i + 1) * s)) →
      forLoop ar (JSNum.fin b) (JSNum.fin s) body fuel (JSNum.fin v) st
        = some (st ++ (List.range n).flatMap (fun i : Nat => h (JSNum.fin (v + i * s)))) := by
  intro n
  induction n with
  | zero =>
      intro fuel v st hf _ hn _
      obtain ⟨f, rfl⟩ : ∃ f, fuel = f + 1 := ⟨fuel - 1, by omega⟩
      have hv : ¬ v ≤ b := by simpa using hn
      simp [forLoop, JSNum.le, hv]
  | succ n ih =>
      intro fuel v st hf hi hn hadd
      obtain ⟨f, rfl⟩ : ∃ f, fuel = f + 1 := ⟨fuel - 1, by omega⟩
      have hv : v ≤ b := by simpa using hi 0 (Nat.succ_pos n)
      have hstep : ar.add (JSNum.fin v) (JSNum.fin s) = JSNum.fin (v + s) := by
        simpa using hadd 0 (Nat.succ_pos n)
      have hi2 : ∀ i : Nat, i < n → (v + s) + i * s ≤ b := by
        intro i hlt
        have := hi (i + 1) (Nat.succ_lt_succ hlt)
        push_cast at this
        linarith
      have hn2 : ¬ ((v + s) + n * s ≤ b) := by
        intro hle
        apply hn
        push_cast
        linarith
      have hadd2 : ∀ i : Nat, i < n →
          ar.add (JSNum.fin ((v + s) + i * s)) (JSNum.fin s)
            = JSNum.fin ((v + s) + (i + 1) * s) := by
        intro i hlt
        have e1 : v + ((i + 1 : Nat) : ℚ) * s = (v + s) + i * s := by push_cast; ring
        have e2 : v + (((i + 1 : Nat) : ℚ) + 1) * s = (v + s) + (i + 1) * s := by
          push_cast; ring
        have := hadd (i + 1) (Nat.succ_lt_succ hlt)
        rw [e1, e2] at this
        exact this
      have hrec := ih f (v + s) (st ++ h (JSNum.fin v)) (by omega) hi2 hn2 hadd2
      have hfun : (fun i : Nat => h (JSNum.fin (v + ((i + 1 : Nat) : ℚ) * s)))
          = (fun i : Nat => h (JSNum.fin (v + s + (i : ℚ) * s))) := by
        funext i
        congr 2
        push_cast
        ring
      simp only [forLoop, JSNum.le, hv, decide_True, if_true, hb, Option.some_bind, hstep]
      rw [hrec, List.range_succ_eq_map, List.flatMap_cons, List.flatMap_map]
      simp only [Nat.cast_zero, zero_mul, add_zero, List.append_assoc, Function.comp_def,
        Nat.succ_eq_add_one, hfun]

theorem flatMap_length_const {α β : Type} (f : α → List β) (k : Nat) (hf : ∀ x, (f x).length = k)
    (l : List α) : (l.flatMap f).length = l.length * k := by
  induction l with
  | nil => simp
  | cons x xs ih => simp [List.flatMap_cons, hf, ih, Nat.add_mul, Nat.add_comm]

theorem rowMajorCells_length (a s c t : ℚ) (g : Nat) :
    (rowMajorCells a s c t g).length = (g + 1) ^ 2 := by
  unfold rowMajorCells
  rw [flatMap_length_const
    (fun i : Nat => (List.range (g + 1)).map (fun j : Nat =>
      (JSNum.fin (a + i * s), JSNum.fin (c + j * t))))
    (g + 1) (fun x => by simp only [List.length_map, List.length_range])]
  simp [pow_two]

/-- The coordinates of the nodes pushed over a list of cells form a sublist
of the cells. -/
theorem cellNodes_sublist (ar : Arith) (parseFloat toNumber : String → JSNum)
    (data : List WeatherPoint) (cells : List (JSNum × JSNum)) :
    List.Sublist
      ((cells.flatMap (fun c => cellNodes ar parseFloat toNumber data c.1 c.2)).map
        (fun n => (n.latitude, n.longitude)))
      cells := by
  induction cells with
  | nil => simp
  | cons c cs ih =>
      rw [List.flatMap_cons, List.map_append]
      by_cases hq : AllQuadrants toNumber c.1 c.2 data
      · obtain ⟨v, hv⟩ := (cellNodes_eq ar parseFloat toNumber data c.1 c.2).2 hq
        rw [hv]
        exact ih.cons₂ _
      · rw [(cellNodes_eq ar parseFloat toNumber data c.1 c.2).1 hq]
        exact ih.cons _

theorem grid_range_bounds (a b : ℚ) (g : Nat) (hg : 0 < g) (hab : a < b) :
    (∀ i : Nat, i < g + 1 → a + (i : ℚ) * ((b - a) / g) ≤ b) ∧
    ¬ (a + ((g + 1 : Nat) : ℚ) * ((b - a) / g) ≤ b) := by
  have hg0 : (0 : ℚ) < g := by exact_mod_cast hg
  have hs : 0 < (b - a) / g := div_pos (sub_pos.2 hab) hg0
  have hgs : (g : ℚ) * ((b - a) / g) = b - a := mul_div_cancel₀ _ (ne_of_gt hg0)
  constructor
  · intro i hi
    have hle : (i : ℚ) ≤ g := by exact_mod_cast Nat.lt_succ_iff.1 hi
    have := mul_le_mul_of_nonneg_right hle (le_of_lt hs)
    linarith
  · intro h
    push_cast at h
    linarith

/-- The two loops over a grid with finite bounds `a < b`, `c < d` and the
steps `(b - a) / g`, `(d - c) / g` visit the cells of `rowMajorCells` in
order, when the additions of the steps are exact and each loop may test its
condition `g + 2` times. -/
theorem gridLoops_rowMajor {β : Type} (ar : Arith) (a b c d : ℚ) (g : Nat) (hg : 0 < g)
    (hab : a < b) (hcd : c < d)
    (haddLat : ∀ i : Nat, i < g + 1 →
      ar.add (JSNum.fin (a + i * ((b - a) / g))) (JSNum.fin ((b - a) / g))
        = JSNum.fin (a + (i + 1) * ((b - a) / g)))
    (haddLon : ∀ j : Nat, j < g + 1 →
      ar.add (JSNum.fin (c + j * ((d - c) / g))) (JSNum.fin ((d - c) / g))
        = JSNum.fin (c + (j + 1) * ((d - c) / g)))
    (cell : JSNum → JSNum → List β → Option (List β))
    (h : JSNum → JSNum → List β) (hcell : ∀ lat lon st, cell lat lon st = some (st ++ h lat lon))
    (fuel : Nat) (hfuel : g + 2 ≤ fuel) (init : List β) :
    gridLoops ar
      { minLat := JSNum.fin a, maxLat := JSNum.fin b, minLon := JSNum.fin c,
        maxLon := JSNum.fin d, latStep := JSNum.fin ((b - a) / g),
        lonStep := JSNum.fin ((d - c) / g) } cell fuel init
      = some (init ++
          (rowMajorCells a ((b - a) / g) c ((d - c) / g) g).flatMap (fun p => h p.1 p.2)) := by
  unfold gridLoops
  simp only
  have hlon := grid_range_bounds c d g hg hcd
  have hlat := grid_range_bounds a b g hg hab
  have hinner : ∀ (lat : JSNum) (st : List β),
      forLoop ar (JSNum.fin d) (JSNum.fin ((d - c) / g)) (fun lon s1 => cell lat lon s1) fuel
        (JSNum.fin c) st
      = some (st ++ (List.range (g + 1)).flatMap
          (fun j : Nat => h lat (JSNum.fin (c + (j : ℚ) * ((d - c) / g))))) := by
    intro lat st
    exact forLoop_range ar d ((d - c) / g) (fun lon s1 => cell lat lon s1) (h lat)
      (fun x s1 => hcell lat x s1) (g + 1) fuel c st (by omega) hlon.1 hlon.2 haddLon
  rw [forLoop_range ar b ((b - a) / g) _
    (fun lat => (List.range (g + 1)).flatMap
      (fun j : Nat => h lat (JSNum.fin (c + (j : ℚ) * ((d - c) / g)))))
    hinner (g + 1) fuel a init (by omega) hlat.1 hlat.2 haddLat]
  simp [rowMajorCells, List.flatMap_assoc, List.flatMap_map, Function.comp_def]

/-- C12: in exact arithmetic, that is when the two steps and the additions
`lat += latStep`, `lon += lonStep` of the run are exact, for a point set
with bounds `minLat < maxLat` and `minLon < maxLon` and a positive integer
resolution `g` the loops of `generateInterpolatedPoints` end (with `g + 2`
tests of each loop condition), they visit exactly the `(g + 1) ^ 2` cells
`(minLat + i * latStep, minLon + j * lonStep)`, `0 <= i, j <= g`, in
row-major order, and the result holds at most `(g + 1) ^ 2` nodes, whose
coordinates follow the order of the cells. -/
theorem generateInterpolatedPoints_terminates (ar : Arith)
    (parseFloat toNumber : String → JSNum)
    (data : List WeatherPoint) (g : Nat) (a b c d : ℚ) (hg : 0 < g)
    (hminLat : (gridOf ar parseFloat data (JSNum.fin g)).minLat = JSNum.fin a)
    (hmaxLat : (gridOf ar parseFloat data (JSNum.fin g)).maxLat = JSNum.fin b)
    (hminLon : (gridOf ar parseFloat data (JSNum.fin g)).minLon = JSNum.fin c)
    (hmaxLon : (gridOf ar parseFloat data (JSNum.fin g)).maxLon = JSNum.fin d)
    (hlat : a < b) (hlon : c < d)
    (hlatStep : (gridOf ar parseFloat data (JSNum.fin g)).latStep = JSNum.fin ((b - a) / g))
    (hlonStep : (gridOf ar parseFloat data (JSNum.fin g)).lonStep = JSNum.fin ((d - c) / g))
    (haddLat : ∀ i : Nat, i < g + 1 →
      ar.add (JSNum.fin (a + i * ((b - a) / g))) (JSNum.fin ((b - a) / g))
        = JSNum.fin (a + (i + 1) * ((b - a) / g)))
    (haddLon : ∀ j : Nat, j < g + 1 →
      ar.add (JSNum.fin (c + j * ((d - c) / g))) (JSNum.fin ((d - c) / g))
        = JSNum.fin (c + (j + 1) * ((d - c) / g)))
    (fuel : Nat) (hfuel : g + 2 ≤ fuel) :
    visitedCells ar parseFloat fuel data (JSNum.fin g)
      = some (rowMajorCells a ((b - a) / g) c ((d - c) / g) g) ∧
    (rowMajorCells a ((b - a) / g) c ((d - c) / g) g).length = (g + 1) ^ 2 ∧
    ∃ nodes,
      generateInterpolatedPoints ar parseFloat toNumber fuel data (JSNum.fin g) = some nodes ∧
      nodes.length ≤ (g + 1) ^ 2 ∧
      List.Sublist (nodes.map (fun n => (n.latitude, n.longitude)))
        (rowMajorCells a ((b - a) / g) c ((d - c) / g) g) := by
  have hgrid : gridOf ar parseFloat data (JSNum.fin g)
      = { minLat := JSNum.fin a, maxLat := JSNum.fin b, minLon := JSNum.fin c,
          maxLon := JSNum.fin d, latStep := JSNum.fin ((b - a) / g),
          lonStep := JSNum.fin ((d - c) / g) } := by
    cases hG : gridOf ar parseFloat data (JSNum.fin g)
    rw [hG] at hminLat hmaxLat hminLon hmaxLon hlatStep hlonStep
    simp only at hminLat hmaxLat hminLon hmaxLon hlatStep hlonStep
    rw [hminLat, hmaxLat, hminLon, hmaxLon, hlatStep, hlonStep]
  have hcells : visitedCells ar parseFloat fuel data (JSNum.fin g)
      = some (rowMajorCells a ((b - a) / g) c ((d - c) / g) g) := by
    unfold visitedCells
    rw [hgrid, gridLoops_rowMajor ar a b c d g hg hlat hlon haddLat haddLon _
      (fun lat lon => [(lat, lon)]) (fun _ _ _ => rfl) fuel hfuel []]
    simp
  have hsub := cellNodes_sublist ar parseFloat toNumber data
    (rowMajorCells a ((b - a) / g) c ((d - c) / g) g)
  refine ⟨hcells, rowMajorCells_length _ _ _ _ _, _, ?_, ?_, hsub⟩
  · rw [generateInterpolatedPoints_eq, hcells]; rfl
  · have := hsub.length_le
    rw [rowMajorCells_length, List.length_map] at this
    exact this

theorem exactArith_add_step (v s : ℚ) (i : Nat) :
    exactArith.add (JSNum.fin (v + i * s)) (JSNum.fin s) = JSNum.fin (v + (i + 1) * s) := by
  show JSNum.fin (v + i * s + s) = JSNum.fin (v + (i + 1) * s)
  congr 1
  ring

/-- The four corner points at the resolution 2 with the fuel 4: the step 1
and the additions `0 + 1`, `1 + 1`, `2 + 1` are exact. -/
theorem generateInterpolatedPoints_terminates_witness :
    ((0 : ℚ) < 2 ∧ 2 + 2 ≤ 4) ∧
    (gridOf exactArith jsParseFloat cornerPoints (JSNum.fin (2 : Nat))).latStep
      = JSNum.fin (((2 : ℚ) - 0) / (2 : Nat)) ∧
    visitedCells exactArith jsParseFloat 4 cornerPoints (JSNum.fin (2 : Nat))
      = some (rowMajorCells 0 (((2 : ℚ) - 0) / (2 : Nat)) 0 (((2 : ℚ) - 0) / (2 : Nat)) 2) ∧
    (rowMajorCells 0 (((2 : ℚ) - 0) / (2 : Nat)) 0 (((2 : ℚ) - 0) / (2 : Nat)) 2).length
      = (2 + 1) ^ 2 ∧
    ∃ nodes, generateInterpolatedPoints exactArith jsParseFloat jsToNumber 4 cornerPoints
        (JSNum.fin (2 : Nat)) = some nodes ∧
      nodes.length ≤ (2 + 1) ^ 2 ∧
      List.Sublist (nodes.map (fun n => (n.latitude, n.longitude)))
        (rowMajorCells 0 (((2 : ℚ) - 0) / (2 : Nat)) 0 (((2 : ℚ) - 0) / (2 : Nat)) 2) :=
  ⟨⟨by norm_num, by decide⟩, by decide!,
   generateInterpolatedPoints_terminates exactArith jsParseFloat jsToNumber cornerPoints 2 0 2 0 2
     (by decide) (by decide!) (by decide!) (by decide!) (by decide!) (by norm_num) (by norm_num)
     (by decide!) (by decide!) (fun i _ => exactArith_add_step _ _ i)
     (fun j _ => exactArith_add_step _ _ j) 4 (by decide)⟩

theorem generateInterpolatedPoints_fuel_example :
    rowMajorCells 0 1 0 1 2
      = [(JSNum.fin 0, JSNum.fin 0), (JSNum.fin 0, JSNum.fin 1), (JSNum.fin 0, JSNum.fin 2),
         (JSNum.fin 1, JSNum.fin 0), (JSNum.fin 1, JSNum.fin 1), (JSNum.fin 1, JSNum.fin 2),
         (JSNum.fin 2, JSNum.fin 0), (JSNum.fin 2, JSNum.fin 1), (JSNum.fin 2, JSNum.fin 2)] ∧
    visitedCells exactArith jsParseFloat 4 cornerPoints (JSNum.fin 2)
      = some (rowMajorCells 0 1 0 1 2) ∧
    visitedCells exactArith jsParseFloat 3 cornerPoints (JSNum.fin 2) = none := by
  decide!

/-! ## The nodes and the bounding box -/

theorem JSNum.lt_of_lt_of_le_bool (a b c : JSNum) (h1 : JSNum.lt a b = true)
    (h2 : JSNum.le b c = true) : JSNum.lt a c = true := by
  cases a <;> cases b <;> cases c <;> simp [JSNum.lt, JSNum.le] at h1 h2 ⊢
  exact lt_of_lt_of_le h1 h2

theorem JSNum.not_nan_of_le_left (a b : JSNum) (h : JSNum.le a b = true) : a.isNaN = false := by
  cases a <;> simp [JSNum.le, JSNum.isNaN] at h ⊢

theorem JSNum.not_nan_of_le_right (a b : JSNum) (h : JSNum.le a b = true) : b.isNaN = false := by
  cases a <;> cases b <;> simp [JSNum.le, JSNum.isNaN] at h ⊢

theorem JSNum.not_nan_of_lt_right (a b : JSNum) (h : JSNum.lt a b = true) : b.isNaN = false := by
  cases a <;> cases b <;> simp [JSNum.lt, JSNum.isNaN] at h ⊢

/-- When `Math.max` of a list is a number, no element is `NaN`, `Math.min`
is at most every element and every element is at most `Math.max`. -/
theorem JSNum.mathMin_mathMax_bounds (xs : List JSNum) (h : (JSNum.mathMax xs).isNaN = false) :
    ∀ x ∈ xs, JSNum.le (JSNum.mathMin xs) x = true ∧ JSNum.le x (JSNum.mathMax xs) = true := by
  have hn : JSNum.nan ∉ xs := by
    intro hmem
    have := JSNum.foldl_max2_of_nan_mem xs hmem JSNum.negInf
    unfold JSNum.mathMax at h
    rw [this] at h
    exact absurd h (by decide)
  have hx : ∀ x ∈ xs, x.isNaN = false := by
    intro x hxm
    cases x <;> simp [JSNum.isNaN]
    exact hn hxm
  intro x hxm
  exact ⟨(JSNum.foldl_min2_spec xs hx JSNum.posInf rfl).2.2 x hxm,
    (JSNum.foldl_max2_spec xs hx JSNum.negInf rfl).2.2 x hxm⟩

/-- A property of the state that every iteration of the body keeps is kept
by the loop. -/
theorem forLoop_invariant {σ : Type} (P : σ → Prop) (ar : Arith) (bound step : JSNum)
    (body : JSNum → σ → Option σ)
    (hbody : ∀ v s s1, JSNum.le v bound = true → P s → body v s = some s1 → P s1) :
    ∀ (fuel : Nat) (v : JSNum) (s s1 : σ), P s →
      forLoop ar bound step body fuel v s = some s1 → P s1 := by
  intro fuel
  induction fuel with
  | zero => intro v s s1 _ h; simp [forLoop] at h
  | succ n ih =>
      intro v s s1 hP h
      simp only [forLoop] at h
      split at h
      · rename_i hle
        cases hb : body v s with
        | none => rw [hb] at h; simp at h
        | some s2 =>
            rw [hb] at h
            exact ih _ s2 s1 (hbody v s s2 hle hP hb) (by simpa using h)
      · have : s = s1 := by simpa using h
        exact this ▸ hP

/-- Every visited cell satisfies the conditions of the two loops. -/
theorem visitedCells_le (ar : Arith) (parseFloat : String → JSNum) (fuel : Nat) (data : List WeatherPoint)
    (gridSize : JSNum) (cells : List (JSNum × JSNum))
    (h : visitedCells ar parseFloat fuel data gridSize = some cells) :
    ∀ c ∈ cells, JSNum.le c.1 (gridOf ar parseFloat data gridSize).maxLat = true ∧
      JSNum.le c.2 (gridOf ar parseFloat data gridSize).maxLon = true := by
  unfold visitedCells gridLoops at h
  refine forLoop_invariant
    (fun cells : List (JSNum × JSNum) =>
      ∀ c ∈ cells, JSNum.le c.1 (gridOf ar parseFloat data gridSize).maxLat = true ∧
        JSNum.le c.2 (gridOf ar parseFloat data gridSize).maxLon = true)
    ar _ _ _ ?_ fuel _ [] cells (by simp) h
  intro lat s s1 hlat hP hs
  refine forLoop_invariant
    (fun cells : List (JSNum × JSNum) =>
      ∀ c ∈ cells, JSNum.le c.1 (gridOf ar parseFloat data gridSize).maxLat = true ∧
        JSNum.le c.2 (gridOf ar parseFloat data gridSize).maxLon = true)
    ar _ _ _ ?_ fuel _ s s1 hP hs
  intro lon t t1 hlon hPt ht
  have ht1 : t1 = t ++ [(lat, lon)] := by simpa using ht.symm
  subst ht1
  intro c hc
  rcases List.mem_append.1 hc with m | m
  · exact hPt c m
  · have : c = (lat, lon) := by simpa using m
    subst this
    exact ⟨hlat, hlon⟩

/-- C13, as the code has it: when the coercion of the comparisons agrees
with `parseFloat` on every coordinate of the data that it turns into a number,
every node of the result has `minLat <= latitude < maxLat` and
`minLon <= longitude < maxLon`, for the bounds of the bounding box. -/
theorem generateInterpolatedPoints_within_bounds (ar : Arith) (parseFloat toNumber : String → JSNum)
    (fuel : Nat) (data : List WeatherPoint) (gridSize : JSNum) (nodes : List GridNode)
    (hagree : ∀ p ∈ data,
      ((onField toNumber p.latitude).isNaN = false →
        onField toNumber p.latitude = onField parseFloat p.latitude) ∧
      ((onField toNumber p.longitude).isNaN = false →
        onField toNumber p.longitude = onField parseFloat p.longitude))
    (hres : generateInterpolatedPoints ar parseFloat toNumber fuel data gridSize = some nodes) :
    ∀ n ∈ nodes,
      JSNum.le (gridOf ar parseFloat data gridSize).minLat n.latitude = true ∧
      JSNum.lt n.latitude (gridOf ar parseFloat data gridSize).maxLat = true ∧
      JSNum.le (gridOf ar parseFloat data gridSize).minLon n.longitude = true ∧
      JSNum.lt n.longitude (gridOf ar parseFloat data gridSize).maxLon = true := by
  rw [generateInterpolatedPoints_eq] at hres
  cases hc : visitedCells ar parseFloat fuel data gridSize with
  | none => rw [hc] at hres; simp at hres
  | some cells =>
      rw [hc] at hres
      have hnodes : nodes = cells.flatMap (fun c => cellNodes ar parseFloat toNumber data c.1 c.2) := by
        simpa using hres.symm
      subst hnodes
      intro n hn
      obtain ⟨c, hcm, hnc⟩ := List.mem_flatMap.1 hn
      by_cases hq : AllQuadrants toNumber c.1 c.2 data
      · obtain ⟨v, hv⟩ := (cellNodes_eq ar parseFloat toNumber data c.1 c.2).2 hq
        rw [hv] at hnc
        have hn2 : n = { latitude := c.1, longitude := c.2, sp := v } := by simpa using hnc
        subst hn2
        have hle := visitedCells_le ar parseFloat fuel data gridSize cells hc c hcm
        have hlatB := JSNum.mathMin_mathMax_bounds
          (data.map (fun p => onField parseFloat p.latitude))
          (JSNum.not_nan_of_le_right _ _ hle.1)
        have hlonB := JSNum.mathMin_mathMax_bounds
          (data.map (fun p => onField parseFloat p.longitude))
          (JSNum.not_nan_of_le_right _ _ hle.2)
        obtain ⟨⟨p, hp, hp00⟩, _, _, ⟨q, hqm, hq11⟩⟩ := hq
        simp only [inQ00, Bool.and_eq_true] at hp00
        simp only [inQ11, JSNum.gt, Bool.and_eq_true] at hq11
        have ep1 := (hagree p hp).1 (JSNum.not_nan_of_le_left _ _ hp00.1)
        have ep2 := (hagree p hp).2 (JSNum.not_nan_of_le_left _ _ hp00.2)
        have eq1 := (hagree q hqm).1 (JSNum.not_nan_of_lt_right _ _ hq11.1)
        have eq2 := (hagree q hqm).2 (JSNum.not_nan_of_lt_right _ _ hq11.2)
        have bp1 := (hlatB _ (List.mem_map_of_mem (fun p => onField parseFloat p.latitude) hp)).1
        have bp2 := (hlonB _ (List.mem_map_of_mem (fun p => onField parseFloat p.longitude) hp)).1
        have bq1 := (hlatB _ (List.mem_map_of_mem (fun p => onField parseFloat p.latitude) hqm)).2
        have bq2 := (hlonB _ (List.mem_map_of_mem (fun p => onField parseFloat p.longitude) hqm)).2
        rw [ep1] at hp00
        rw [ep2] at hp00
        rw [eq1] at hq11
        rw [eq2] at hq11
        exact ⟨JSNum.le_trans_bool _ _ _ bp1 hp00.1, JSNum.lt_of_lt_of_le_bool _ _ _ hq11.1 bq1,
          JSNum.le_trans_bool _ _ _ bp2 hp00.2, JSNum.lt_of_lt_of_le_bool _ _ _ hq11.2 bq2⟩
      · rw [(cellNodes_eq ar parseFloat toNumber data c.1 c.2).1 hq] at hnc
        simp at hnc

/-- The four corner points at the resolution 2: the four nodes lie below the
maximum row and the maximum column. -/
theorem generateInterpolatedPoints_within_bounds_witness :
    generateInterpolatedPoints exactArith jsParseFloat jsToNumber 4 cornerPoints (JSNum.fin 2)
      = some [⟨JSNum.fin 0, JSNum.fin 0, JSNum.fin 25⟩, ⟨JSNum.fin 0, JSNum.fin 1, JSNum.fin 25⟩,
              ⟨JSNum.fin 1, JSNum.fin 0, JSNum.fin 25⟩, ⟨JSNum.fin 1, JSNum.fin 1, JSNum.fin 25⟩] ∧
    ∀ n ∈ [(⟨JSNum.fin 0, JSNum.fin 0, JSNum.fin 25⟩ : GridNode),
           ⟨JSNum.fin 0, JSNum.fin 1, JSNum.fin 25⟩,
           ⟨JSNum.fin 1, JSNum.fin 0, JSNum.fin 25⟩, ⟨JSNum.fin 1, JSNum.fin 1, JSNum.fin 25⟩],
      JSNum.le (gridOf exactArith jsParseFloat cornerPoints (JSNum.fin 2)).minLat n.latitude = true ∧
      JSNum.lt n.latitude (gridOf exactArith jsParseFloat cornerPoints (JSNum.fin 2)).maxLat = true ∧
      JSNum.le (gridOf exactArith jsParseFloat cornerPoints (JSNum.fin 2)).minLon n.longitude = true ∧
      JSNum.lt n.longitude (gridOf exactArith jsParseFloat cornerPoints (JSNum.fin 2)).maxLon = true :=
  ⟨by decide!,
   generateInterpolatedPoints_within_bounds exactArith jsParseFloat jsToNumber 4 cornerPoints (JSNum.fin 2) _
     (by decide!) (by decide!)⟩

/-- C13 as stated fails: with two latitudes `"0x10"` the bounding box has
`maxLat = 1`, and a node is returned at the latitude 1, on the maximum row:
the comparisons see the latitude 16 above it. -/
theorem generateInterpolatedPoints_bounds_counterexample :
    (gridOf exactArith jsParseFloat hexPoints (JSNum.fin 1)).maxLat = JSNum.fin 1 ∧
    generateInterpolatedPoints exactArith jsParseFloat jsToNumber 5 hexPoints (JSNum.fin 1)
      = some [⟨JSNum.fin 1, JSNum.fin 0, JSNum.fin 25⟩] ∧
    JSNum.lt (GridNode.mk (JSNum.fin 1) (JSNum.fin 0) (JSNum.fin 25)).latitude
      (gridOf exactArith jsParseFloat hexPoints (JSNum.fin 1)).maxLat = false ∧
    onField jsParseFloat (mkPoint "t" "0" "0x10" "30").latitude = JSNum.fin 0 ∧
    onField jsToNumber (mkPoint "t" "0" "0x10" "30").latitude = JSNum.fin 16 := by
  decide!

end WeatherViz
